import Mathlib

/-!
# Order fulfilment and order summary of the E-Cart dashboard

A shallow embedding of `src/src/dataService.js` (`parseNumber`,
`getFulfillmentWithSplit`, `calculateOrderSummary`) and theorems about it.

Numeric model.  A JavaScript number that is finite is the rational (`ℚ`) it
denotes.  The products and sums of prices and of minutes (`unitPrice * quantity`,
the running `itemsCost`, `itemsCost + deliveryCharge`, `maxDistanceKm * 1.2` and
the sum of the minutes) are rounded to binary64 as the source computes them:
`toDouble` is rounding to the nearest binary64 number with ties to the even
significand, and `fmul`, `fadd` are the rounded product and sum.  `Math.min`,
`Math.max`, `Math.ceil`, `Math.round` and comparisons return exact results in
JavaScript too.  The arithmetic on quantities, stock counts and surcharge slabs
(`remainingQuantity -= …`, `totalQuantity += …`, `distanceKm / 100`,
`distanceSlabs * 10`, `deliveryCharge += …`) is written exactly, which is what
JavaScript computes when quantities, stocks and distances are whole numbers.
Overflow to an infinity is not modelled.

A raw value read from an object (a price, a stock, a distance, a requested
quantity) is an `Option ℚ`: `some q` when `Number(String(value).trim())` is the
finite binary64 number `q`, and `none` when it is not finite (`undefined`,
`null`, `NaN`, an infinity, text that is not a number).

A JavaScript object with string keys is an association list in the iteration
order of `Object.entries`; `obj[key]` is `jsGet`.
-/

namespace ECart

/-! ## The embedding of the source -/

/-- A raw JavaScript value as `parseNumber` sees it. -/
abbrev Raw := Option ℚ

/-- A JavaScript object with string keys, in `Object.entries` order. -/
abbrev JsObject := List (String × Raw)

/-- Property access `obj[key]`: the value of the first entry with that key, and
`none` (for `undefined`) when there is no such entry. -/
def jsGet (obj : JsObject) (key : String) : Raw :=
  match obj with
  | [] => none
  | (k, v) :: rest => if k = key then v else jsGet rest key

/-- The distance map: `Map` from a source city to the object of its distances. -/
abbrev DistanceMap := List (String × JsObject)

/-- The lookup `distanceMap.get(city)?.[destinationCity]`. -/
def distanceGet (distanceMap : DistanceMap) (city destinationCity : String) : Raw :=
  match distanceMap with
  | [] => none
  | (k, row) :: rest =>
    if k = city then jsGet row destinationCity else distanceGet rest city destinationCity

/-- `parseNumber(value)`: the finite number the value converts to, else `0`. -/
def parseNumber (value : Raw) : ℚ :=
  match value with
  | some parsed => parsed
  | none => 0

/-- The expression `value || 0` on a raw value, as far as `parseNumber` can tell
the result apart: a value that is falsy or not a number gives `0`. -/
def orZero (value : Raw) : Raw :=
  match value with
  | some q => if q = 0 then some 0 else some q
  | none => some 0

/-- The expression `x || 0` on a finite number. -/
def numOrZero (x : ℚ) : ℚ := if x = 0 then 0 else x

/-- `Math.round`: the nearest integer, a tie going up. -/
def jsRound (x : ℚ) : ℤ := ⌊x + 1 / 2⌋

/-- `Math.ceil`. -/
def jsCeil (x : ℚ) : ℤ := ⌈x⌉

/-- The power `2 ^ e` for an integer exponent. -/
def pow2 (e : ℤ) : ℚ :=
  if 0 ≤ e then ((2 ^ e.toNat : ℕ) : ℚ) else 1 / ((2 ^ (-e).toNat : ℕ) : ℚ)

/-- The number of halvings that bring `n` below 2, at most `fuel` of them. -/
def halvings : ℕ → ℕ → ℕ
  | 0, _ => 0
  | fuel + 1, n => if n < 2 then 0 else halvings fuel (n / 2) + 1

/-- The exponent of the binade of `x`: the `e` with `2 ^ e ≤ |x| < 2 ^ (e + 1)`
for `x ≠ 0`. -/
def floorLog2 (x : ℚ) : ℤ :=
  let e₀ : ℤ := (halvings x.num.natAbs x.num.natAbs : ℤ) - (halvings x.den x.den : ℤ)
  if pow2 e₀ ≤ |x| then e₀ else e₀ - 1

/-- Rounding to the nearest integer, a tie going to the even one. -/
def roundHalfEven (r : ℚ) : ℤ :=
  if r - ⌊r⌋ < 1 / 2 then ⌊r⌋
  else if 1 / 2 < r - ⌊r⌋ then ⌊r⌋ + 1
  else if ⌊r⌋ % 2 = 0 then ⌊r⌋ else ⌊r⌋ + 1

/-- The binary64 number nearest to `x`, a tie going to the even significand:
the rounding every arithmetic operation on JavaScript numbers ends with. The
spacing is `2 ^ (e - 52)` in the binade of exponent `e`, and `2 ^ (-1074)`
below `2 ^ (-1022)`. Overflow to an infinity is not modelled. -/
def toDouble (x : ℚ) : ℚ :=
  (roundHalfEven (x / pow2 (max (floorLog2 x) (-1022) - 52)) : ℚ) *
    pow2 (max (floorLog2 x) (-1022) - 52)

/-- The product of two JavaScript numbers. -/
def fmul (x y : ℚ) : ℚ := toDouble (x * y)

/-- The sum of two JavaScript numbers. -/
def fadd (x y : ℚ) : ℚ := toDouble (x + y)

/-- The running sum `((0 + x₁) + x₂) + …` of JavaScript numbers. -/
def doubleSum (l : List ℚ) : ℚ := l.foldl fadd 0

/-- A catalog item; the display metadata other than the name is left out. -/
structure Item where
  itemId : ℚ
  productName : String
  pricesByCity : JsObject
  quantitiesByCity : JsObject

/-- One element of the array returned by `getFulfillmentWithSplit`. -/
structure Fulfillment where
  sourceCity : Option String
  quantityFromCity : ℚ
  unitPrice : ℚ
  distanceKm : ℚ
  outOfStock : Bool
  deriving DecidableEq

/-- The record `nearest` of the fallback scan. -/
structure Nearest where
  sourceCity : String
  quantityInCity : ℚ
  unitPrice : ℚ
  distanceKm : ℚ
  deriving DecidableEq

/-- One iteration of the loop over `Object.entries(item.quantitiesByCity)`. -/
def nearestStep (item : Item) (destinationCity : String) (distanceMap : DistanceMap)
    (nearest : Option Nearest) (entry : String × Raw) : Option Nearest :=
  let city := entry.1
  let rawQuantity := entry.2
  if city = destinationCity then nearest
  else
    let cityQuantity := parseNumber rawQuantity
    if cityQuantity ≤ 0 then nearest
    else
      let price := parseNumber (jsGet item.pricesByCity city)
      if price ≤ 0 then nearest
      else
        let distanceKm := numOrZero (parseNumber (distanceGet distanceMap city destinationCity))
        match nearest with
        | none =>
          some { sourceCity := city, quantityInCity := cityQuantity, unitPrice := price,
                 distanceKm := distanceKm }
        | some n =>
          if distanceKm < n.distanceKm ∨ (distanceKm = n.distanceKm ∧ price < n.unitPrice) then
            some { sourceCity := city, quantityInCity := cityQuantity, unitPrice := price,
                   distanceKm := distanceKm }
          else some n

/-- The whole fallback scan: `nearest` after the loop, starting from `null`. -/
def findNearest (item : Item) (destinationCity : String) (distanceMap : DistanceMap) :
    Option Nearest :=
  item.quantitiesByCity.foldl (nearestStep item destinationCity distanceMap) none

/-- The state after the destination step: the portions so far and
`remainingQuantity`. -/
def destinationStep (item : Item) (quantity : ℚ) (destinationCity : String) :
    List Fulfillment × ℚ :=
  let destinationQuantity := parseNumber (orZero (jsGet item.quantitiesByCity destinationCity))
  let destinationPrice := parseNumber (orZero (jsGet item.pricesByCity destinationCity))
  if destinationQuantity > 0 ∧ destinationPrice > 0 then
    let quantityFromDestination := min quantity destinationQuantity
    ([{ sourceCity := some destinationCity, quantityFromCity := quantityFromDestination,
        unitPrice := destinationPrice, distanceKm := 0, outOfStock := false }],
     quantity - quantityFromDestination)
  else ([], quantity)

/-- The state after the fallback step. -/
def fallbackStep (item : Item) (destinationCity : String) (distanceMap : DistanceMap)
    (state : List Fulfillment × ℚ) : List Fulfillment × ℚ :=
  let remainingQuantity := state.2
  if remainingQuantity > 0 then
    match findNearest item destinationCity distanceMap with
    | some nearest =>
      let quantityFromFallback := min remainingQuantity nearest.quantityInCity
      (state.1 ++ [{ sourceCity := some nearest.sourceCity,
                     quantityFromCity := quantityFromFallback,
                     unitPrice := nearest.unitPrice, distanceKm := nearest.distanceKm,
                     outOfStock := false }],
       remainingQuantity - quantityFromFallback)
    | none => state
  else state

/-- The out-of-stock step: what is still unmet becomes one portion without a
source. -/
def shortfallStep (state : List Fulfillment × ℚ) : List Fulfillment :=
  let remainingQuantity := state.2
  if remainingQuantity > 0 then
    state.1 ++ [{ sourceCity := none, quantityFromCity := remainingQuantity, unitPrice := 0,
                  distanceKm := 0, outOfStock := true }]
  else state.1

/-- `getFulfillmentWithSplit(item, quantity, destinationCity, distanceMap)`. -/
def getFulfillmentWithSplit (item : Item) (quantity : ℚ) (destinationCity : String)
    (distanceMap : DistanceMap) : List Fulfillment :=
  shortfallStep
    (fallbackStep item destinationCity distanceMap (destinationStep item quantity destinationCity))

/-- `getLowestAvailablePrice(item)`: the prices above zero are collected in
`Object.values` order; `prices.length ? Math.min(...prices) : 0` is 0 for the
empty list and the least element otherwise. -/
def getLowestAvailablePrice (item : Item) : ℚ :=
  let prices := (item.pricesByCity.map (fun entry => parseNumber entry.2)).filter
    (fun price => decide (price > 0))
  match prices with
  | [] => 0
  | price :: rest => rest.foldl min price

/-- The sum of `quantityFromCity` over a list of portions. -/
def totalPortionQuantity (portions : List Fulfillment) : ℚ :=
  (portions.map (fun p => p.quantityFromCity)).sum

/-- The stock of an item at a city, `parseNumber(item.quantitiesByCity[city])`. -/
def stockAt (item : Item) (city : String) : ℚ := parseNumber (jsGet item.quantitiesByCity city)

/-- The unit price of an item at a city, `parseNumber(item.pricesByCity[city])`. -/
def priceAt (item : Item) (city : String) : ℚ := parseNumber (jsGet item.pricesByCity city)

/-- The distance the fallback scan ranks a city by,
`parseNumber(distanceMap.get(city)?.[destinationCity]) || 0`. -/
def rankDistance (distanceMap : DistanceMap) (city destinationCity : String) : ℚ :=
  numOrZero (parseNumber (distanceGet distanceMap city destinationCity))

/-- An entry of `item.quantitiesByCity` that the fallback scan does not skip: a
city other than the destination with stock and price above zero. -/
def IsCandidate (item : Item) (destinationCity : String) (entry : String × Raw) : Prop :=
  entry.1 ≠ destinationCity ∧ 0 < parseNumber entry.2 ∧ 0 < priceAt item entry.1

instance (item : Item) (destinationCity : String) (entry : String × Raw) :
    Decidable (IsCandidate item destinationCity entry) := by
  unfold IsCandidate
  infer_instance

/-- The record the fallback scan stores for an entry it does not skip. -/
def nearestOf (item : Item) (destinationCity : String) (distanceMap : DistanceMap)
    (entry : String × Raw) : Nearest :=
  { sourceCity := entry.1, quantityInCity := parseNumber entry.2,
    unitPrice := priceAt item entry.1,
    distanceKm := rankDistance distanceMap entry.1 destinationCity }

/-- The test of the scan for replacing `nearest`: strictly nearer, or equally
near and strictly cheaper. -/
def RankLt (d p d' p' : ℚ) : Prop := d < d' ∨ (d = d' ∧ p < p')

instance (d p d' p' : ℚ) : Decidable (RankLt d p d' p') := by
  unfold RankLt
  infer_instance

/-- Nearer, or equally near and not dearer. -/
def RankLe (d p d' p' : ℚ) : Prop := d < d' ∨ (d = d' ∧ p ≤ p')

/-- One element of the request array `orderItems`. -/
structure OrderItem where
  itemId : ℚ
  quantity : Raw

/-- The field `status` of a detail record. -/
inductive Status where
  | AVAILABLE
  | OUT_OF_STOCK
  deriving DecidableEq

/-- One element of `fulfillmentDetails`; `isFallback` is absent (`none`) on an
out-of-stock record. -/
structure FulfillmentDetail where
  itemId : ℚ
  productName : String
  quantity : ℚ
  sourceCity : Option String
  unitPrice : ℚ
  distanceKm : ℚ
  isFallback : Option Bool
  status : Status
  deriving DecidableEq

/-- The argument `data`, as far as `calculateOrderSummary` reads it. -/
structure Data where
  items : List Item
  distanceMap : DistanceMap

/-- The variables of `calculateOrderSummary` that live across order lines. -/
structure Acc where
  maxDistanceKm : ℚ
  itemsCost : ℚ
  deliveryCharge : ℚ
  totalQuantity : ℚ
  fulfillmentDetails : List FulfillmentDetail

/-- The variables while the portions of one order line are processed. -/
structure LineState where
  acc : Acc
  itemHasStock : Bool
  totalItemCost : ℚ
  maxItemDistance : ℚ

/-- The test `!fulfillment.sourceCity`: true for `null` and for the empty
string. -/
def sourceMissing (sourceCity : Option String) : Bool :=
  match sourceCity with
  | none => true
  | some city => city == ""

/-- The body of the loop `for (const fulfillment of fulfillments)`. -/
def portionStep (item : Item) (s : LineState) (fulfillment : Fulfillment) : LineState :=
  if sourceMissing fulfillment.sourceCity then
    { s with
      acc := { s.acc with
        fulfillmentDetails := s.acc.fulfillmentDetails ++
          [{ itemId := item.itemId, productName := item.productName,
             quantity := fulfillment.quantityFromCity, sourceCity := none, unitPrice := 0,
             distanceKm := 0, isFallback := none, status := Status.OUT_OF_STOCK }] } }
  else
    let portionCost := fmul fulfillment.unitPrice fulfillment.quantityFromCity
    let deliveryCharge :=
      if fulfillment.distanceKm > 0 then
        let distanceSlabs := jsCeil (fulfillment.distanceKm / 100)
        s.acc.deliveryCharge + (distanceSlabs : ℚ) * 10
      else s.acc.deliveryCharge
    { acc :=
        { s.acc with
          itemsCost := fadd s.acc.itemsCost portionCost
          deliveryCharge := deliveryCharge
          fulfillmentDetails := s.acc.fulfillmentDetails ++
            [{ itemId := item.itemId, productName := item.productName,
               quantity := fulfillment.quantityFromCity, sourceCity := fulfillment.sourceCity,
               unitPrice := fulfillment.unitPrice, distanceKm := fulfillment.distanceKm,
               isFallback := some (decide (fulfillment.distanceKm > 0)),
               status := Status.AVAILABLE }] }
      itemHasStock := true
      totalItemCost := fadd s.totalItemCost portionCost
      maxItemDistance := max s.maxItemDistance fulfillment.distanceKm }

/-- The body of the loop `for (const orderItem of orderItems)`. -/
def lineStep (destinationCity : String) (data : Data) (acc : Acc) (orderItem : OrderItem) : Acc :=
  match data.items.find? (fun entry => decide (entry.itemId = orderItem.itemId)) with
  | none => acc
  | some item =>
    let quantity := max 0 (parseNumber orderItem.quantity)
    if quantity = 0 then acc
    else
      let fulfillments := getFulfillmentWithSplit item quantity destinationCity data.distanceMap
      let s := fulfillments.foldl (portionStep item)
        { acc := acc, itemHasStock := false, totalItemCost := 0, maxItemDistance := 0 }
      if s.itemHasStock then
        { s.acc with
          totalQuantity := s.acc.totalQuantity + quantity
          maxDistanceKm := max s.acc.maxDistanceKm s.maxItemDistance }
      else s.acc

/-- The object returned by `calculateOrderSummary`. -/
structure OrderSummary where
  itemsCost : ℤ
  deliveryCharge : ℤ
  totalCost : ℤ
  totalQuantity : ℚ
  arrivalMinutes : ℤ
  distanceKm : ℚ
  fulfillmentDetails : List FulfillmentDetail
  deriving DecidableEq

/-- The variables after the loop over all order lines. -/
def runLines (orderItems : List OrderItem) (destinationCity : String) (data : Data) : Acc :=
  orderItems.foldl (lineStep destinationCity data)
    { maxDistanceKm := 0, itemsCost := 0, deliveryCharge := 0, totalQuantity := 0,
      fulfillmentDetails := [] }

/-- `calculateOrderSummary({ orderItems, destinationCity, data })`. -/
def calculateOrderSummary (orderItems : List OrderItem) (destinationCity : String)
    (data : Data) : OrderSummary :=
  let acc := runLines orderItems destinationCity data
  let baseMinutes : ℚ := 30
  let distanceMinutes : ℚ := fmul acc.maxDistanceKm (toDouble 1.2)
  let productLineCount : ℚ := (acc.fulfillmentDetails.length : ℚ)
  let itemHandlingMinutes : ℚ := fmul productLineCount 3
  let arrivalMinutes := jsRound (fadd (fadd baseMinutes distanceMinutes) itemHandlingMinutes)
  let totalCost := jsRound (fadd acc.itemsCost acc.deliveryCharge)
  { itemsCost := jsRound acc.itemsCost
    deliveryCharge := jsRound acc.deliveryCharge
    totalCost := totalCost
    totalQuantity := acc.totalQuantity
    arrivalMinutes := arrivalMinutes
    distanceKm := acc.maxDistanceKm
    fulfillmentDetails := acc.fulfillmentDetails }

/-! ## Example data and the notions used in the statements -/

/-- Scenario 3 of the specification: destination `D` with stock 2 at price 100,
one other source `Z` with stock 1 at price 95, 50 km away. -/
def itemA : Item :=
  { itemId := 1, productName := "A",
    pricesByCity := [("D", some 100), ("Z", some 95)],
    quantitiesByCity := [("D", some 2), ("Z", some 1)] }

/-- The distances for `itemA`. -/
def distA : DistanceMap := [("Z", [("D", some 50)]), ("D", [("D", some 0)])]

/-- The portion the fallback step draws from the chosen city. -/
def fallbackPortion (remainingQuantity : ℚ) (nearest : Nearest) : Fulfillment :=
  { sourceCity := some nearest.sourceCity,
    quantityFromCity := min remainingQuantity nearest.quantityInCity,
    unitPrice := nearest.unitPrice, distanceKm := nearest.distanceKm, outOfStock := false }

/-- The portion the out-of-stock step records. -/
def shortfallPortion (remainingQuantity : ℚ) : Fulfillment :=
  { sourceCity := none, quantityFromCity := remainingQuantity, unitPrice := 0, distanceKm := 0,
    outOfStock := true }

/-- What the scan holds after a prefix of the entries: nothing when the prefix
has no candidate, and otherwise the record of a candidate that ranks strictly
before every candidate met earlier and not after any candidate met later. -/
def ScanInv (item : Item) (destinationCity : String) (distanceMap : DistanceMap)
    (entries : List (String × Raw)) (nearest : Option Nearest) : Prop :=
  match nearest with
  | none => ∀ e ∈ entries, ¬ IsCandidate item destinationCity e
  | some n =>
    ∃ before chosen after,
      entries = before ++ chosen :: after ∧ IsCandidate item destinationCity chosen ∧
      n = nearestOf item destinationCity distanceMap chosen ∧
      (∀ e ∈ before, IsCandidate item destinationCity e →
        RankLt n.distanceKm n.unitPrice
          (rankDistance distanceMap e.1 destinationCity) (priceAt item e.1)) ∧
      (∀ e ∈ after, IsCandidate item destinationCity e →
        RankLe n.distanceKm n.unitPrice
          (rankDistance distanceMap e.1 destinationCity) (priceAt item e.1))

/-- Scenario 2 of the specification: nothing at the destination `D`; `X` sells
at 90 and `Y` at 80, both 150 km away, each with 10 in stock. -/
def itemXY : Item :=
  { itemId := 2, productName := "A",
    pricesByCity := [("D", some 100), ("X", some 90), ("Y", some 80)],
    quantitiesByCity := [("D", some 0), ("X", some 10), ("Y", some 10)] }

/-- The distances for `itemXY`. -/
def distXY : DistanceMap :=
  [("D", [("D", some 0)]), ("X", [("D", some 150)]), ("Y", [("D", some 150)])]

/-- An item with no stock entry for the destination `D` and two sellable cities:
`A`, for which the distance map has no entry, and `B`, 100 km from `D`. -/
def itemAB : Item :=
  { itemId := 3, productName := "A",
    pricesByCity := [("A", some 50), ("B", some 50)],
    quantitiesByCity := [("A", some 5), ("B", some 5)] }

/-- The distances for `itemAB`: only `B` has a row. -/
def distAB : DistanceMap := [("B", [("D", some 100)])]

/-- The test of C5 on a portion: its source is neither `null` nor the
destination. -/
def isFallbackSource (destinationCity : String) (p : Fulfillment) : Bool :=
  decide (p.sourceCity ≠ none ∧ p.sourceCity ≠ some destinationCity)

/-- The property of C6 for one returned portion with source city `c`. -/
def SellableSource (item : Item) (p : Fulfillment) (c : String) : Prop :=
  0 < stockAt item c ∧ 0 < priceAt item c ∧ p.unitPrice = priceAt item c ∧
    0 < p.quantityFromCity ∧ p.quantityFromCity ≤ stockAt item c

/-- A detail record with status `AVAILABLE`. -/
def isAvailable (d : FulfillmentDetail) : Bool := decide (d.status = Status.AVAILABLE)

/-- The sum of `unitPrice × quantity` over the `AVAILABLE` records, computed as
the source does: each product and each partial sum, taken in record order from
0, is a JavaScript number. -/
def availableCost (details : List FulfillmentDetail) : ℚ :=
  doubleSum ((details.filter isAvailable).map (fun d => fmul d.unitPrice d.quantity))

/-- The surcharge of one record, `10 × ceil(distanceKm / 100)`. -/
def portionSurcharge (d : FulfillmentDetail) : ℤ := 10 * jsCeil (d.distanceKm / 100)

/-- The sum of the surcharges over the `AVAILABLE` records with
`distanceKm > 0`. -/
def availableSurcharge (details : List FulfillmentDetail) : ℤ :=
  ((details.filter (fun d => isAvailable d && decide (0 < d.distanceKm))).map
    portionSurcharge).sum

/-- The sum of the quantities of the `AVAILABLE` records. -/
def availableQuantity (details : List FulfillmentDetail) : ℚ :=
  ((details.filter isAvailable).map (fun d => d.quantity)).sum

/-- What holds of the running totals after every portion and every line. -/
def AccInv (acc : Acc) : Prop :=
  acc.itemsCost = availableCost acc.fulfillmentDetails ∧
    acc.deliveryCharge = (availableSurcharge acc.fulfillmentDetails : ℚ) ∧
    ∀ d ∈ acc.fulfillmentDetails, d.status = Status.OUT_OF_STOCK →
      d.sourceCity = none ∧ d.unitPrice = 0 ∧ d.distanceKm = 0

/-- A portion that the summary records as `AVAILABLE`: its source city is
neither `null` nor empty. -/
def hasSource (f : Fulfillment) : Bool := !sourceMissing f.sourceCity

/-- What one order line adds to `totalQuantity`: nothing when its item is not
in the catalog or no returned portion has a source, and otherwise its whole
requested quantity `max(0, parseNumber(quantity))`. -/
def lineQuantity (destinationCity : String) (data : Data) (orderItem : OrderItem) : ℚ :=
  match data.items.find? (fun entry => decide (entry.itemId = orderItem.itemId)) with
  | none => 0
  | some item =>
    if (getFulfillmentWithSplit item (max 0 (parseNumber orderItem.quantity)) destinationCity
        data.distanceMap).any hasSource
    then max 0 (parseNumber orderItem.quantity) else 0

/-- The greatest number of a list, counted from 0 as the running maxima
`maxItemDistance` and `maxDistanceKm` are. -/
def maxFromZero (l : List ℚ) : ℚ := l.foldr max 0

/-- The distances of the `AVAILABLE` records, in order. -/
def availableDistances (details : List FulfillmentDetail) : List ℚ :=
  (details.filter isAvailable).map (fun d => d.distanceKm)

/-- The greatest of 0 and the `distanceKm` of the `AVAILABLE` records. -/
def maxAvailableDistance (details : List FulfillmentDetail) : ℚ :=
  maxFromZero (availableDistances details)

/-- The detail record that the summary pushes for one portion. -/
def detailOf (item : Item) (f : Fulfillment) : FulfillmentDetail :=
  if sourceMissing f.sourceCity then
    { itemId := item.itemId, productName := item.productName, quantity := f.quantityFromCity,
      sourceCity := none, unitPrice := 0, distanceKm := 0, isFallback := none,
      status := Status.OUT_OF_STOCK }
  else
    { itemId := item.itemId, productName := item.productName, quantity := f.quantityFromCity,
      sourceCity := f.sourceCity, unitPrice := f.unitPrice, distanceKm := f.distanceKm,
      isFallback := some (decide (f.distanceKm > 0)), status := Status.AVAILABLE }

/-- The portions the allocator returns for one order line: none when the item
is not in the catalog or the quantity `max(0, parseNumber(quantity))` is 0. -/
def linePortions (destinationCity : String) (data : Data) (orderItem : OrderItem) :
    List Fulfillment :=
  match data.items.find? (fun entry => decide (entry.itemId = orderItem.itemId)) with
  | none => []
  | some item =>
    if max 0 (parseNumber orderItem.quantity) = 0 then []
    else getFulfillmentWithSplit item (max 0 (parseNumber orderItem.quantity)) destinationCity
      data.distanceMap

/-- The detail records one order line adds. -/
def lineDetails (destinationCity : String) (data : Data) (orderItem : OrderItem) :
    List FulfillmentDetail :=
  match data.items.find? (fun entry => decide (entry.itemId = orderItem.itemId)) with
  | none => []
  | some item => (linePortions destinationCity data orderItem).map (detailOf item)

/-- The portions of all order lines, in order. -/
def orderPortions (destinationCity : String) (data : Data) :
    List OrderItem → List Fulfillment
  | [] => []
  | orderItem :: rest =>
    linePortions destinationCity data orderItem ++ orderPortions destinationCity data rest

/-- The detail records of all order lines, in order. -/
def orderDetails (destinationCity : String) (data : Data) :
    List OrderItem → List FulfillmentDetail
  | [] => []
  | orderItem :: rest =>
    lineDetails destinationCity data orderItem ++ orderDetails destinationCity data rest

/-- The distances of the portions of a list that have a source. -/
def sourcedDistances (portions : List Fulfillment) : List ℚ :=
  (portions.filter hasSource).map (fun f => f.distanceKm)

/-- An item with stock 1 at the destination `D` and stock 5 at `Z`, 240 km
away: a request of 2 takes one unit from each. -/
def itemFar : Item :=
  { itemId := 4, productName := "F",
    pricesByCity := [("D", some 100), ("Z", some 95)],
    quantitiesByCity := [("D", some 1), ("Z", some 5)] }

/-- The distances for `itemFar`. -/
def distFar : DistanceMap := [("Z", [("D", some 240)])]

/-- An item with nothing at the destination `D`, stock 1 at `S` and stock 10
at `T`. -/
def itemST : Item :=
  { itemId := 5, productName := "G",
    pricesByCity := [("S", some 80), ("T", some 90)],
    quantitiesByCity := [("S", some 1), ("T", some 10)] }

/-- Distances for `itemST`: `S` is 100 km and `T` 101 km from `D`. -/
def distNear : DistanceMap := [("S", [("D", some 100)]), ("T", [("D", some 101)])]

/-- The map `distNear` after the distance from `S` to `D` is raised to 200 km. -/
def distRaised : DistanceMap := [("S", [("D", some 200)]), ("T", [("D", some 101)])]

/-- The map `distA` after the distance from `Z` to `D` is raised from 50 to 80. -/
def distARaised : DistanceMap := [("Z", [("D", some 80)]), ("D", [("D", some 0)])]

/-- An order line that the summary drops: its `itemId` is not in the catalog,
or its quantity is zero, negative or not a number (`parseNumber` then gives a
value `≤ 0`). -/
def isDroppedLine (data : Data) (orderItem : OrderItem) : Bool :=
  decide (∀ item ∈ data.items, item.itemId ≠ orderItem.itemId) ||
    decide (parseNumber orderItem.quantity ≤ 0)

/-- The summary of an order without lines. -/
def emptySummary : OrderSummary :=
  { itemsCost := 0, deliveryCharge := 0, totalCost := 0, totalQuantity := 0,
    arrivalMinutes := 30, distanceKm := 0, fulfillmentDetails := [] }

/-- A number that is an integer. -/
def IsInteger (x : ℚ) : Prop := ∃ n : ℤ, x = n

/-- The quantity `calculateOrderSummary` passes to the allocator for a line,
`Math.max(0, parseNumber(orderItem.quantity))`. -/
def requestedQuantity (orderItem : OrderItem) : ℚ := max 0 (parseNumber orderItem.quantity)

/-- The stock an item has in all cities where it can be sold: the sum of the
stock over the entries with stock and price above zero. -/
def totalSellableStock (item : Item) : ℚ :=
  ((item.quantitiesByCity.filter
      (fun e => decide (0 < parseNumber e.2) && decide (0 < priceAt item e.1))).map
    (fun e => parseNumber e.2)).sum

/-- An item sold only at `F`, at the price written 0.7, with 45 in stock. -/
def itemFrac : Item :=
  { itemId := 6, productName := "H",
    pricesByCity := [("F", some (toDouble (7 / 10)))],
    quantitiesByCity := [("F", some 45)] }

/-- The distances for `itemFrac`: `F` is 100 km from `D`. -/
def distFrac : DistanceMap := [("F", [("D", some 100)])]

/-- A distance map in which no entry is negative, as the data model of the
distance index has it. -/
def DistancesNonneg (distanceMap : DistanceMap) : Prop :=
  ∀ city destinationCity, 0 ≤ parseNumber (distanceGet distanceMap city destinationCity)

/-! ## Rounding to binary64 -/

theorem pow2_eq_zpow (e : ℤ) : pow2 e = (2 : ℚ) ^ e := by
  unfold pow2
  split_ifs with h
  · obtain ⟨n, rfl⟩ := Int.eq_ofNat_of_zero_le h
    simp
  · have h' : 0 ≤ -e := by omega
    obtain ⟨n, hn⟩ := Int.eq_ofNat_of_zero_le h'
    have he : e = -(n : ℤ) := by omega
    subst he
    simp

theorem pow2_pos (e : ℤ) : 0 < pow2 e := by
  rw [pow2_eq_zpow]
  positivity

theorem pow2_le_pow2 {a b : ℤ} (h : a ≤ b) : pow2 a ≤ pow2 b := by
  rw [pow2_eq_zpow, pow2_eq_zpow]
  exact zpow_le_zpow_right₀ (by norm_num) h

theorem pow2_lt_pow2_iff {a b : ℤ} : pow2 a < pow2 b ↔ a < b := by
  rw [pow2_eq_zpow, pow2_eq_zpow]
  exact zpow_lt_zpow_iff_right₀ (by norm_num)

theorem pow2_add (a b : ℤ) : pow2 (a + b) = pow2 a * pow2 b := by
  rw [pow2_eq_zpow, pow2_eq_zpow, pow2_eq_zpow]
  exact zpow_add₀ (by norm_num) a b

theorem halvings_eq_log2 (fuel n : ℕ) (h : n ≤ fuel) : halvings fuel n = Nat.log2 n := by
  induction fuel generalizing n with
  | zero =>
    have : n = 0 := by omega
    subst this
    rw [Nat.log2]
    simp [halvings]
  | succ fuel ih =>
    rw [Nat.log2]
    unfold halvings
    by_cases h2 : n < 2
    · rw [if_pos h2, if_neg (by omega)]
    · rw [if_neg h2, if_pos (by omega), ih (n / 2) (by omega)]

theorem halvings_spec (n : ℕ) (hn : n ≠ 0) :
    2 ^ halvings n n ≤ n ∧ n < 2 ^ (halvings n n + 1) := by
  rw [halvings_eq_log2 n n (le_refl _)]
  exact ⟨Nat.log2_self_le hn, Nat.lt_log2_self⟩

theorem pow2_bracket (p q a b : ℕ) (hq : 0 < q) (hpl : 2 ^ a ≤ p) (hpu : p < 2 ^ (a + 1))
    (hql : 2 ^ b ≤ q) (hqu : q < 2 ^ (b + 1)) :
    pow2 ((a : ℤ) - (b : ℤ) - 1) ≤ (p : ℚ) / (q : ℚ) ∧
      (p : ℚ) / (q : ℚ) < pow2 ((a : ℤ) - (b : ℤ) + 1) := by
  have hqpos : (0 : ℚ) < (q : ℚ) := by exact_mod_cast hq
  have hpl' : (2 : ℚ) ^ a ≤ (p : ℚ) := by exact_mod_cast hpl
  have hpu' : (p : ℚ) < (2 : ℚ) ^ a * 2 := by
    rw [← pow_succ]
    exact_mod_cast hpu
  have hql' : (2 : ℚ) ^ b ≤ (q : ℚ) := by exact_mod_cast hql
  have hqu' : (q : ℚ) ≤ (2 : ℚ) ^ b * 2 := by
    rw [← pow_succ]
    exact_mod_cast hqu.le
  have h2b : (0 : ℚ) < (2 : ℚ) ^ b := by positivity
  have hp0 : (0 : ℚ) ≤ (p : ℚ) := by positivity
  constructor
  · rw [pow2_eq_zpow, zpow_sub₀ (by norm_num : (2 : ℚ) ≠ 0),
      zpow_sub₀ (by norm_num : (2 : ℚ) ≠ 0), zpow_natCast, zpow_natCast, zpow_one, div_div,
      div_le_div_iff₀ (by positivity) hqpos]
    calc (2 : ℚ) ^ a * (q : ℚ) ≤ (p : ℚ) * (q : ℚ) := mul_le_mul_of_nonneg_right hpl' hqpos.le
      _ ≤ (p : ℚ) * ((2 : ℚ) ^ b * 2) := mul_le_mul_of_nonneg_left hqu' hp0
  · rw [pow2_eq_zpow, zpow_add₀ (by norm_num : (2 : ℚ) ≠ 0),
      zpow_sub₀ (by norm_num : (2 : ℚ) ≠ 0), zpow_natCast, zpow_natCast, zpow_one,
      div_mul_eq_mul_div, div_lt_div_iff₀ hqpos h2b]
    calc (p : ℚ) * (2 : ℚ) ^ b ≤ (p : ℚ) * (q : ℚ) := mul_le_mul_of_nonneg_left hql' hp0
      _ < (2 : ℚ) ^ a * 2 * (q : ℚ) := mul_lt_mul_of_pos_right hpu' hqpos

theorem floorLog2_spec (x : ℚ) (hx : 0 < x) :
    pow2 (floorLog2 x) ≤ x ∧ x < pow2 (floorLog2 x + 1) := by
  have hnum : 0 < x.num := Rat.num_pos.mpr hx
  have hp0 : x.num.natAbs ≠ 0 := by omega
  obtain ⟨hpl, hpu⟩ := halvings_spec x.num.natAbs hp0
  obtain ⟨hql, hqu⟩ := halvings_spec x.den x.den_nz
  have hxeq : (x.num.natAbs : ℚ) / (x.den : ℚ) = x := by
    have h1 : ((x.num.natAbs : ℤ) : ℚ) = (x.num : ℚ) := by
      rw [Int.natAbs_of_nonneg hnum.le]
    rw [← Int.cast_natCast, h1]
    exact Rat.num_div_den x
  have hb := pow2_bracket x.num.natAbs x.den _ _ (Nat.pos_of_ne_zero x.den_nz) hpl hpu hql hqu
  rw [hxeq] at hb
  unfold floorLog2
  simp only [abs_of_pos hx]
  split_ifs with h
  · exact ⟨h, hb.2⟩
  · refine ⟨hb.1, ?_⟩
    rw [sub_add_cancel]
    exact not_le.mp h

theorem floorLog2_mono {x y : ℚ} (hx : 0 < x) (hxy : x ≤ y) : floorLog2 x ≤ floorLog2 y := by
  have h₁ := (floorLog2_spec x hx).1
  have h₂ := (floorLog2_spec y (lt_of_lt_of_le hx hxy)).2
  have : pow2 (floorLog2 x) < pow2 (floorLog2 y + 1) := lt_of_le_of_lt (le_trans h₁ hxy) h₂
  have := pow2_lt_pow2_iff.mp this
  omega

theorem roundHalfEven_le (r : ℚ) : (roundHalfEven r : ℚ) ≤ r + 1 / 2 := by
  have h₁ := Int.floor_le r
  have h₂ := Int.lt_floor_add_one r
  unfold roundHalfEven
  split_ifs with ha hb hc
  · linarith
  · push_cast; linarith
  · linarith
  · push_cast; linarith

theorem roundHalfEven_ge (r : ℚ) : r - 1 / 2 ≤ (roundHalfEven r : ℚ) := by
  have h₁ := Int.floor_le r
  have h₂ := Int.lt_floor_add_one r
  unfold roundHalfEven
  split_ifs with ha hb hc
  · linarith
  · push_cast; linarith
  · linarith
  · push_cast; linarith

theorem roundHalfEven_intCast (n : ℤ) : roundHalfEven (n : ℚ) = n := by
  unfold roundHalfEven
  rw [Int.floor_intCast, sub_self, if_pos (by norm_num)]

theorem roundHalfEven_mono {r s : ℚ} (h : r ≤ s) : roundHalfEven r ≤ roundHalfEven s := by
  by_contra hlt
  have hlt' : roundHalfEven s + 1 ≤ roundHalfEven r := by omega
  have hq : (roundHalfEven s : ℚ) + 1 ≤ (roundHalfEven r : ℚ) := by exact_mod_cast hlt'
  have h₁ := roundHalfEven_le r
  have h₂ := roundHalfEven_ge s
  have hrs : r = s := le_antisymm h (by linarith)
  subst hrs
  omega

theorem toDouble_zero : toDouble 0 = 0 := by
  unfold toDouble
  rw [zero_div]
  have : roundHalfEven 0 = 0 := by
    have := roundHalfEven_intCast 0
    simpa using this
  rw [this]
  simp

theorem toDouble_nonneg {x : ℚ} (hx : 0 ≤ x) : 0 ≤ toDouble x := by
  unfold toDouble
  have hp := pow2_pos (max (floorLog2 x) (-1022) - 52)
  have h0 : roundHalfEven 0 = 0 := by
    have := roundHalfEven_intCast 0
    simpa using this
  have hr : (0 : ℤ) ≤ roundHalfEven (x / pow2 (max (floorLog2 x) (-1022) - 52)) := by
    rw [← h0]
    exact roundHalfEven_mono (div_nonneg hx hp.le)
  have hr' : (0 : ℚ) ≤ (roundHalfEven (x / pow2 (max (floorLog2 x) (-1022) - 52)) : ℚ) := by
    exact_mod_cast hr
  exact mul_nonneg hr' hp.le

/-- Rounding to binary64 keeps the order of numbers that are not negative. -/
theorem toDouble_mono {x y : ℚ} (hx : 0 ≤ x) (hxy : x ≤ y) : toDouble x ≤ toDouble y := by
  rcases eq_or_lt_of_le hx with h0 | hpos
  · rw [← h0, toDouble_zero]
    exact toDouble_nonneg (le_trans hx hxy)
  have hypos : 0 < y := lt_of_lt_of_le hpos hxy
  have hfl := floorLog2_mono hpos hxy
  have hE : max (floorLog2 x) (-1022) ≤ max (floorLog2 y) (-1022) := max_le_max hfl (le_refl _)
  rcases eq_or_lt_of_le hE with heq | hlt
  · unfold toDouble
    rw [heq]
    have hp := pow2_pos (max (floorLog2 y) (-1022) - 52)
    have hr := roundHalfEven_mono (div_le_div_of_nonneg_right hxy hp.le)
    have hr' : (roundHalfEven (x / pow2 (max (floorLog2 y) (-1022) - 52)) : ℚ) ≤
        (roundHalfEven (y / pow2 (max (floorLog2 y) (-1022) - 52)) : ℚ) := by
      exact_mod_cast hr
    exact mul_le_mul_of_nonneg_right hr' hp.le
  · -- the binade of `y` lies above the binade of `x`
    have hEy : max (floorLog2 y) (-1022) = floorLog2 y := by
      apply max_eq_left
      have : -1022 ≤ max (floorLog2 x) (-1022) := le_max_right _ _
      by_contra hc
      rw [max_eq_right (by omega)] at hlt
      omega
    have hxup : x < pow2 (max (floorLog2 x) (-1022) + 1) :=
      lt_of_lt_of_le (floorLog2_spec x hpos).2 (pow2_le_pow2 (by
        have := le_max_left (floorLog2 x) (-1022)
        omega))
    have hylow : pow2 (max (floorLog2 y) (-1022)) ≤ y := by
      rw [hEy]
      exact (floorLog2_spec y hypos).1
    have hupper : toDouble x ≤ pow2 (max (floorLog2 x) (-1022) + 1) := by
      unfold toDouble
      have hp := pow2_pos (max (floorLog2 x) (-1022) - 52)
      have hquot : x / pow2 (max (floorLog2 x) (-1022) - 52) ≤ ((2 ^ 53 : ℤ) : ℚ) := by
        rw [div_le_iff₀ hp]
        have : pow2 (max (floorLog2 x) (-1022) + 1) =
            ((2 ^ 53 : ℤ) : ℚ) * pow2 (max (floorLog2 x) (-1022) - 52) := by
          have h53 : ((2 ^ 53 : ℤ) : ℚ) = pow2 53 := by
            rw [pow2_eq_zpow]
            norm_num
          rw [h53, ← pow2_add]
          congr 1
          ring
        rw [← this]
        exact hxup.le
      have hr := roundHalfEven_mono hquot
      rw [roundHalfEven_intCast] at hr
      have hr' : (roundHalfEven (x / pow2 (max (floorLog2 x) (-1022) - 52)) : ℚ) ≤
          ((2 ^ 53 : ℤ) : ℚ) := by exact_mod_cast hr
      have h53 : ((2 ^ 53 : ℤ) : ℚ) = pow2 53 := by
        rw [pow2_eq_zpow]
        norm_num
      calc (roundHalfEven (x / pow2 (max (floorLog2 x) (-1022) - 52)) : ℚ) *
            pow2 (max (floorLog2 x) (-1022) - 52)
          ≤ ((2 ^ 53 : ℤ) : ℚ) * pow2 (max (floorLog2 x) (-1022) - 52) :=
            mul_le_mul_of_nonneg_right hr' hp.le
        _ = pow2 (max (floorLog2 x) (-1022) + 1) := by
            rw [h53, ← pow2_add]
            congr 1
            ring
    have hlower : pow2 (max (floorLog2 y) (-1022)) ≤ toDouble y := by
      unfold toDouble
      have hp := pow2_pos (max (floorLog2 y) (-1022) - 52)
      have h52 : ((2 ^ 52 : ℤ) : ℚ) = pow2 52 := by
        rw [pow2_eq_zpow]
        norm_num
      have hsplit : pow2 (max (floorLog2 y) (-1022)) =
          ((2 ^ 52 : ℤ) : ℚ) * pow2 (max (floorLog2 y) (-1022) - 52) := by
        rw [h52, ← pow2_add]
        congr 1
        ring
      have hquot : ((2 ^ 52 : ℤ) : ℚ) ≤ y / pow2 (max (floorLog2 y) (-1022) - 52) := by
        rw [le_div_iff₀ hp, ← hsplit]
        exact hylow
      have hr := roundHalfEven_mono hquot
      rw [roundHalfEven_intCast] at hr
      have hr' : ((2 ^ 52 : ℤ) : ℚ) ≤
          (roundHalfEven (y / pow2 (max (floorLog2 y) (-1022) - 52)) : ℚ) := by
        exact_mod_cast hr
      calc pow2 (max (floorLog2 y) (-1022))
          = ((2 ^ 52 : ℤ) : ℚ) * pow2 (max (floorLog2 y) (-1022) - 52) := hsplit
        _ ≤ _ := mul_le_mul_of_nonneg_right hr' hp.le
    calc toDouble x ≤ pow2 (max (floorLog2 x) (-1022) + 1) := hupper
      _ ≤ pow2 (max (floorLog2 y) (-1022)) := pow2_le_pow2 (by omega)
      _ ≤ toDouble y := hlower

theorem fadd_mono {a b c e : ℚ} (h0 : 0 ≤ a + b) (hac : a ≤ c) (hbe : b ≤ e) :
    fadd a b ≤ fadd c e :=
  toDouble_mono h0 (add_le_add hac hbe)

theorem fmul_mono_left {a c k : ℚ} (ha : 0 ≤ a) (hk : 0 ≤ k) (hac : a ≤ c) :
    fmul a k ≤ fmul c k :=
  toDouble_mono (mul_nonneg ha hk) (mul_le_mul_of_nonneg_right hac hk)

/-! ## Basic facts -/

theorem parseNumber_orZero (v : Raw) : parseNumber (orZero v) = parseNumber v := by
  cases v with
  | none => simp [orZero, parseNumber]
  | some q =>
    by_cases h : q = 0
    · simp [orZero, parseNumber, h]
    · simp [orZero, parseNumber, h]

theorem numOrZero_eq (x : ℚ) : numOrZero x = x := by
  unfold numOrZero
  split_ifs with h
  · exact h.symm
  · rfl

theorem totalPortionQuantity_append (l₁ l₂ : List Fulfillment) :
    totalPortionQuantity (l₁ ++ l₂) = totalPortionQuantity l₁ + totalPortionQuantity l₂ := by
  simp [totalPortionQuantity]

/-- The destination step, written with `stockAt` and `priceAt`. -/
theorem destinationStep_eq (item : Item) (quantity : ℚ) (destinationCity : String) :
    destinationStep item quantity destinationCity =
      if 0 < stockAt item destinationCity ∧ 0 < priceAt item destinationCity then
        ([{ sourceCity := some destinationCity,
            quantityFromCity := min quantity (stockAt item destinationCity),
            unitPrice := priceAt item destinationCity, distanceKm := 0, outOfStock := false }],
         quantity - min quantity (stockAt item destinationCity))
      else ([], quantity) := by
  simp only [destinationStep, parseNumber_orZero, stockAt, priceAt, gt_iff_lt]

/-- The destination step keeps what is allotted plus what remains equal to the
request, and leaves a remainder that is not negative. -/
theorem destinationStep_inv (item : Item) (quantity : ℚ) (destinationCity : String)
    (hq : 0 ≤ quantity) :
    totalPortionQuantity (destinationStep item quantity destinationCity).1 +
        (destinationStep item quantity destinationCity).2 = quantity ∧
      0 ≤ (destinationStep item quantity destinationCity).2 := by
  rw [destinationStep_eq]
  split_ifs with h
  · simp [totalPortionQuantity, hq]
  · simp [totalPortionQuantity, hq]

theorem fallbackStep_of_not_pos (item : Item) (destinationCity : String)
    (distanceMap : DistanceMap) (state : List Fulfillment × ℚ) (hr : ¬ 0 < state.2) :
    fallbackStep item destinationCity distanceMap state = state := by
  simp only [fallbackStep, gt_iff_lt, if_neg hr]

theorem fallbackStep_of_none (item : Item) (destinationCity : String)
    (distanceMap : DistanceMap) (state : List Fulfillment × ℚ)
    (hn : findNearest item destinationCity distanceMap = none) :
    fallbackStep item destinationCity distanceMap state = state := by
  simp only [fallbackStep, hn, ite_self]

theorem fallbackStep_of_some (item : Item) (destinationCity : String)
    (distanceMap : DistanceMap) (state : List Fulfillment × ℚ) (n : Nearest)
    (hr : 0 < state.2) (hn : findNearest item destinationCity distanceMap = some n) :
    fallbackStep item destinationCity distanceMap state =
      (state.1 ++ [fallbackPortion state.2 n], state.2 - min state.2 n.quantityInCity) := by
  simp only [fallbackStep, gt_iff_lt, if_pos hr, hn, fallbackPortion]

theorem shortfallStep_eq (state : List Fulfillment × ℚ) :
    shortfallStep state =
      if 0 < state.2 then state.1 ++ [shortfallPortion state.2] else state.1 := by
  simp only [shortfallStep, gt_iff_lt, shortfallPortion]

/-- The fallback step keeps the same two facts. -/
theorem fallbackStep_inv (item : Item) (destinationCity : String) (distanceMap : DistanceMap)
    (state : List Fulfillment × ℚ) (quantity : ℚ)
    (h : totalPortionQuantity state.1 + state.2 = quantity ∧ 0 ≤ state.2) :
    totalPortionQuantity (fallbackStep item destinationCity distanceMap state).1 +
        (fallbackStep item destinationCity distanceMap state).2 = quantity ∧
      0 ≤ (fallbackStep item destinationCity distanceMap state).2 := by
  by_cases hr : 0 < state.2
  · cases hn : findNearest item destinationCity distanceMap with
    | none => rw [fallbackStep_of_none _ _ _ _ hn]; exact h
    | some n =>
      rw [fallbackStep_of_some _ _ _ _ n hr hn]
      refine ⟨?_, ?_⟩
      · have := h.1
        simp only [totalPortionQuantity_append]
        simp only [totalPortionQuantity, fallbackPortion, List.map_cons, List.map_nil,
          List.sum_cons, List.sum_nil] at this ⊢
        linarith
      · simp
  · rw [fallbackStep_of_not_pos _ _ _ _ hr]; exact h

/-- The out-of-stock step turns a remainder that is not negative into a portion. -/
theorem shortfallStep_total (state : List Fulfillment × ℚ) (h : 0 ≤ state.2) :
    totalPortionQuantity (shortfallStep state) = totalPortionQuantity state.1 + state.2 := by
  rw [shortfallStep_eq]
  split_ifs with hr
  · simp [totalPortionQuantity, shortfallPortion]
  · have : state.2 = 0 := le_antisymm (not_lt.mp hr) h
    simp [this]

/-- The fallback step only appends to the portions. -/
theorem fallbackStep_prefix (item : Item) (destinationCity : String) (distanceMap : DistanceMap)
    (state : List Fulfillment × ℚ) :
    ∃ extra, (fallbackStep item destinationCity distanceMap state).1 = state.1 ++ extra := by
  by_cases hr : 0 < state.2
  · cases hn : findNearest item destinationCity distanceMap with
    | none => rw [fallbackStep_of_none _ _ _ _ hn]; exact ⟨[], by simp⟩
    | some n => rw [fallbackStep_of_some _ _ _ _ n hr hn]; exact ⟨_, rfl⟩
  · rw [fallbackStep_of_not_pos _ _ _ _ hr]; exact ⟨[], by simp⟩

/-- The out-of-stock step only appends to the portions. -/
theorem shortfallStep_prefix (state : List Fulfillment × ℚ) :
    ∃ extra, shortfallStep state = state.1 ++ extra := by
  rw [shortfallStep_eq]
  split_ifs with hr
  · exact ⟨_, rfl⟩
  · exact ⟨[], by simp⟩

/-! ## The fallback scan -/

theorem RankLe_of_not_RankLt {d p d' p' : ℚ} (h : ¬ RankLt d p d' p') : RankLe d' p' d p := by
  unfold RankLt at h
  unfold RankLe
  rcases lt_trichotomy d' d with hlt | heq | hgt
  · exact Or.inl hlt
  · refine Or.inr ⟨heq, ?_⟩
    by_contra hp
    exact h (Or.inr ⟨heq.symm, not_le.mp hp⟩)
  · exact absurd (Or.inl hgt) h

theorem RankLt_trans {d₁ p₁ d₂ p₂ d₃ p₃ : ℚ} (h₁ : RankLt d₁ p₁ d₂ p₂)
    (h₂ : RankLt d₂ p₂ d₃ p₃) : RankLt d₁ p₁ d₃ p₃ := by
  unfold RankLt at *
  rcases h₁ with h₁ | ⟨h₁, h₁'⟩ <;> rcases h₂ with h₂ | ⟨h₂, h₂'⟩
  · exact Or.inl (lt_trans h₁ h₂)
  · exact Or.inl (h₂ ▸ h₁)
  · exact Or.inl (h₁ ▸ h₂)
  · exact Or.inr ⟨h₁.trans h₂, lt_trans h₁' h₂'⟩

theorem RankLt_of_RankLt_of_RankLe {d₁ p₁ d₂ p₂ d₃ p₃ : ℚ} (h₁ : RankLt d₁ p₁ d₂ p₂)
    (h₂ : RankLe d₂ p₂ d₃ p₃) : RankLt d₁ p₁ d₃ p₃ := by
  unfold RankLt RankLe at *
  rcases h₁ with h₁ | ⟨h₁, h₁'⟩ <;> rcases h₂ with h₂ | ⟨h₂, h₂'⟩
  · exact Or.inl (lt_trans h₁ h₂)
  · exact Or.inl (h₂ ▸ h₁)
  · exact Or.inl (h₁ ▸ h₂)
  · exact Or.inr ⟨h₁.trans h₂, lt_of_lt_of_le h₁' h₂'⟩

theorem nearestStep_of_not_candidate (item : Item) (destinationCity : String)
    (distanceMap : DistanceMap) (nearest : Option Nearest) (entry : String × Raw)
    (h : ¬ IsCandidate item destinationCity entry) :
    nearestStep item destinationCity distanceMap nearest entry = nearest := by
  unfold IsCandidate priceAt at h
  simp only [nearestStep]
  by_cases h₁ : entry.1 = destinationCity
  · rw [if_pos h₁]
  · rw [if_neg h₁]
    by_cases h₂ : parseNumber entry.2 ≤ 0
    · rw [if_pos h₂]
    · rw [if_neg h₂]
      by_cases h₃ : parseNumber (jsGet item.pricesByCity entry.1) ≤ 0
      · rw [if_pos h₃]
      · exact absurd ⟨h₁, not_le.mp h₂, not_le.mp h₃⟩ h

theorem nearestStep_none (item : Item) (destinationCity : String)
    (distanceMap : DistanceMap) (entry : String × Raw)
    (h : IsCandidate item destinationCity entry) :
    nearestStep item destinationCity distanceMap none entry =
      some (nearestOf item destinationCity distanceMap entry) := by
  obtain ⟨h₁, h₂, h₃⟩ := h
  unfold priceAt at h₃
  simp only [nearestStep, if_neg h₁, if_neg (not_le.mpr h₂), if_neg (not_le.mpr h₃), nearestOf,
    priceAt, rankDistance]

theorem nearestStep_some (item : Item) (destinationCity : String)
    (distanceMap : DistanceMap) (n : Nearest) (entry : String × Raw)
    (h : IsCandidate item destinationCity entry) :
    nearestStep item destinationCity distanceMap (some n) entry =
      if RankLt (rankDistance distanceMap entry.1 destinationCity) (priceAt item entry.1)
          n.distanceKm n.unitPrice
      then some (nearestOf item destinationCity distanceMap entry) else some n := by
  obtain ⟨h₁, h₂, h₃⟩ := h
  unfold priceAt at h₃
  simp only [nearestStep, if_neg h₁, if_neg (not_le.mpr h₂), if_neg (not_le.mpr h₃), nearestOf,
    priceAt, rankDistance]
  by_cases hlt : RankLt (numOrZero (parseNumber (distanceGet distanceMap entry.1 destinationCity)))
      (parseNumber (jsGet item.pricesByCity entry.1)) n.distanceKm n.unitPrice
  · rw [if_pos hlt]
    exact if_pos hlt
  · rw [if_neg hlt]
    exact if_neg hlt

theorem ScanInv_step (item : Item) (destinationCity : String) (distanceMap : DistanceMap)
    (entries : List (String × Raw)) (nearest : Option Nearest) (entry : String × Raw)
    (h : ScanInv item destinationCity distanceMap entries nearest) :
    ScanInv item destinationCity distanceMap (entries ++ [entry])
      (nearestStep item destinationCity distanceMap nearest entry) := by
  by_cases hc : IsCandidate item destinationCity entry
  · cases nearest with
    | none =>
      rw [nearestStep_none _ _ _ _ hc]
      refine ⟨entries, entry, [], rfl, hc, rfl, ?_, ?_⟩
      · intro e he hce
        exact absurd hce (h e he)
      · intro e he
        simp at he
    | some n =>
      obtain ⟨before, chosen, after, hsplit, hch, hn, hbefore, hafter⟩ := h
      rw [nearestStep_some _ _ _ _ _ hc]
      split_ifs with hlt
      · refine ⟨entries, entry, [], rfl, hc, rfl, ?_, ?_⟩
        · intro e he hce
          have hlt' : RankLt (nearestOf item destinationCity distanceMap entry).distanceKm
              (nearestOf item destinationCity distanceMap entry).unitPrice
              n.distanceKm n.unitPrice := hlt
          rw [hsplit] at he
          rcases List.mem_append.mp he with hb | hb
          · exact RankLt_trans hlt' (hbefore e hb hce)
          · rcases List.mem_cons.mp hb with rfl | ha
            · rw [hn] at hlt'
              exact hlt'
            · exact RankLt_of_RankLt_of_RankLe hlt' (hafter e ha hce)
        · intro e he
          simp at he
      · refine ⟨before, chosen, after ++ [entry], by simp [hsplit], hch, hn, hbefore, ?_⟩
        intro e he hce
        rcases List.mem_append.mp he with ha | ha
        · exact hafter e ha hce
        · have : e = entry := by simpa using ha
          subst this
          exact RankLe_of_not_RankLt hlt
  · rw [nearestStep_of_not_candidate _ _ _ _ _ hc]
    cases nearest with
    | none =>
      intro e he
      rcases List.mem_append.mp he with ha | ha
      · exact h e ha
      · have : e = entry := by simpa using ha
        subst this
        exact hc
    | some n =>
      obtain ⟨before, chosen, after, hsplit, hch, hn, hbefore, hafter⟩ := h
      refine ⟨before, chosen, after ++ [entry], by simp [hsplit], hch, hn, hbefore, ?_⟩
      intro e he hce
      rcases List.mem_append.mp he with ha | ha
      · exact hafter e ha hce
      · have : e = entry := by simpa using ha
        subst this
        exact absurd hce hc

theorem ScanInv_foldl (item : Item) (destinationCity : String) (distanceMap : DistanceMap)
    (entries : List (String × Raw)) :
    ScanInv item destinationCity distanceMap entries
      (entries.foldl (nearestStep item destinationCity distanceMap) none) := by
  induction entries using List.reverseRecOn with
  | nil =>
    intro e he
    simp at he
  | append_singleton l a ih =>
    rw [List.foldl_append]
    exact ScanInv_step item destinationCity distanceMap l _ a ih

/-- The outcome of the fallback scan over the whole item. -/
theorem findNearest_spec (item : Item) (destinationCity : String) (distanceMap : DistanceMap) :
    ScanInv item destinationCity distanceMap item.quantitiesByCity
      (findNearest item destinationCity distanceMap) :=
  ScanInv_foldl item destinationCity distanceMap item.quantitiesByCity

theorem findNearest_mem (item : Item) (destinationCity : String) (distanceMap : DistanceMap)
    (n : Nearest) (hn : findNearest item destinationCity distanceMap = some n) :
    ∃ e ∈ item.quantitiesByCity, IsCandidate item destinationCity e ∧
      n = nearestOf item destinationCity distanceMap e := by
  have hspec := findNearest_spec item destinationCity distanceMap
  rw [hn] at hspec
  obtain ⟨before, chosen, after, hsplit, hch, hrec, -, -⟩ := hspec
  exact ⟨chosen, by rw [hsplit]; simp, hch, hrec⟩

theorem findNearest_le (item : Item) (destinationCity : String) (distanceMap : DistanceMap)
    (n : Nearest) (hn : findNearest item destinationCity distanceMap = some n)
    (e : String × Raw) (he : e ∈ item.quantitiesByCity)
    (hc : IsCandidate item destinationCity e) :
    n.distanceKm ≤ rankDistance distanceMap e.1 destinationCity := by
  have hspec := findNearest_spec item destinationCity distanceMap
  rw [hn] at hspec
  obtain ⟨before, chosen, after, hsplit, hch, hrec, hbefore, hafter⟩ := hspec
  rw [hsplit] at he
  rcases List.mem_append.mp he with hb | hb
  · rcases hbefore e hb hc with h | ⟨h, -⟩
    · exact h.le
    · exact h.le
  · rcases List.mem_cons.mp hb with rfl | ha
    · rw [hrec]
      exact le_refl _
    · rcases hafter e ha hc with h | ⟨h, -⟩
      · exact h.le
      · exact h.le

theorem findNearest_none_iff (item : Item) (destinationCity : String)
    (distanceMap : DistanceMap) :
    findNearest item destinationCity distanceMap = none ↔
      ∀ e ∈ item.quantitiesByCity, ¬ IsCandidate item destinationCity e := by
  have hspec := findNearest_spec item destinationCity distanceMap
  constructor
  · intro hn
    rw [hn] at hspec
    exact hspec
  · intro hno
    cases hn : findNearest item destinationCity distanceMap with
    | none => rfl
    | some n =>
      obtain ⟨e, he, hc, -⟩ := findNearest_mem item destinationCity distanceMap n hn
      exact absurd hc (hno e he)

/-! ## The shape of the result -/

theorem getFulfillmentWithSplit_of_not_pos (item : Item) (quantity : ℚ)
    (destinationCity : String) (distanceMap : DistanceMap)
    (hr : ¬ 0 < (destinationStep item quantity destinationCity).2) :
    getFulfillmentWithSplit item quantity destinationCity distanceMap =
      (destinationStep item quantity destinationCity).1 := by
  unfold getFulfillmentWithSplit
  rw [fallbackStep_of_not_pos _ _ _ _ hr, shortfallStep_eq, if_neg hr]

theorem getFulfillmentWithSplit_of_none (item : Item) (quantity : ℚ)
    (destinationCity : String) (distanceMap : DistanceMap)
    (hn : findNearest item destinationCity distanceMap = none) :
    getFulfillmentWithSplit item quantity destinationCity distanceMap =
      (destinationStep item quantity destinationCity).1 ++
        (if 0 < (destinationStep item quantity destinationCity).2 then
          [shortfallPortion (destinationStep item quantity destinationCity).2] else []) := by
  unfold getFulfillmentWithSplit
  rw [fallbackStep_of_none _ _ _ _ hn, shortfallStep_eq]
  split_ifs <;> simp

theorem getFulfillmentWithSplit_of_some (item : Item) (quantity : ℚ)
    (destinationCity : String) (distanceMap : DistanceMap) (n : Nearest)
    (hr : 0 < (destinationStep item quantity destinationCity).2)
    (hn : findNearest item destinationCity distanceMap = some n) :
    getFulfillmentWithSplit item quantity destinationCity distanceMap =
      (destinationStep item quantity destinationCity).1 ++
        fallbackPortion (destinationStep item quantity destinationCity).2 n ::
          (if 0 < (destinationStep item quantity destinationCity).2 -
                min (destinationStep item quantity destinationCity).2 n.quantityInCity then
            [shortfallPortion ((destinationStep item quantity destinationCity).2 -
                min (destinationStep item quantity destinationCity).2 n.quantityInCity)]
           else []) := by
  unfold getFulfillmentWithSplit
  rw [fallbackStep_of_some _ _ _ _ n hr hn, shortfallStep_eq]
  split_ifs <;> simp

theorem rankDistance_of_some (distanceMap : DistanceMap) (city destinationCity : String) (d : ℚ)
    (h : distanceGet distanceMap city destinationCity = some d) :
    rankDistance distanceMap city destinationCity = d := by
  simp [rankDistance, numOrZero_eq, h, parseNumber]

/-- Every portion of the destination step is drawn from the destination: the
step yields a portion only when stock and price there are above zero, and then
exactly the destination portion. -/
theorem mem_destinationStep (item : Item) (quantity : ℚ) (destinationCity : String)
    (p : Fulfillment) (hp : p ∈ (destinationStep item quantity destinationCity).1) :
    0 < stockAt item destinationCity ∧ 0 < priceAt item destinationCity ∧
      p = { sourceCity := some destinationCity,
            quantityFromCity := min quantity (stockAt item destinationCity),
            unitPrice := priceAt item destinationCity, distanceKm := 0, outOfStock := false } := by
  rw [destinationStep_eq] at hp
  split_ifs at hp with h
  · exact ⟨h.1, h.2, by simpa using hp⟩
  · simp at hp

/-- Where a returned portion comes from: the destination step, the fallback
step (only with quantity remaining and a city found by the scan), or the
out-of-stock step. -/
theorem mem_getFulfillmentWithSplit (item : Item) (quantity : ℚ) (destinationCity : String)
    (distanceMap : DistanceMap) (p : Fulfillment)
    (hp : p ∈ getFulfillmentWithSplit item quantity destinationCity distanceMap) :
    p ∈ (destinationStep item quantity destinationCity).1 ∨
      (∃ n, 0 < (destinationStep item quantity destinationCity).2 ∧
        findNearest item destinationCity distanceMap = some n ∧
        p = fallbackPortion (destinationStep item quantity destinationCity).2 n) ∨
      ∃ r, p = shortfallPortion r := by
  by_cases hr : 0 < (destinationStep item quantity destinationCity).2
  · cases hn : findNearest item destinationCity distanceMap with
    | none =>
      rw [getFulfillmentWithSplit_of_none _ _ _ _ hn, if_pos hr] at hp
      rcases List.mem_append.mp hp with h | h
      · exact Or.inl h
      · exact Or.inr (Or.inr ⟨_, by simpa using h⟩)
    | some n =>
      rw [getFulfillmentWithSplit_of_some _ _ _ _ n hr hn] at hp
      rcases List.mem_append.mp hp with h | h
      · exact Or.inl h
      · rcases List.mem_cons.mp h with h | h
        · exact Or.inr (Or.inl ⟨n, hr, rfl, h⟩)
        · split_ifs at h
          · exact Or.inr (Or.inr ⟨_, by simpa using h⟩)
          · simp at h
  · rw [getFulfillmentWithSplit_of_not_pos _ _ _ _ hr] at hp
    exact Or.inl hp

/-- In an object whose keys are distinct, `obj[key]` is the value of the entry
with that key. -/
theorem jsGet_of_mem (obj : JsObject) (hkeys : (obj.map Prod.fst).Nodup) (k : String) (v : Raw)
    (h : (k, v) ∈ obj) : jsGet obj k = v := by
  induction obj with
  | nil => simp at h
  | cons e rest ih =>
    obtain ⟨k', v'⟩ := e
    simp only [List.map_cons, List.nodup_cons] at hkeys
    rcases List.mem_cons.mp h with heq | hmem
    · have hk : k = k' := congrArg Prod.fst heq
      have hv : v = v' := congrArg Prod.snd heq
      simp [jsGet, hk, hv]
    · have hne : k' ≠ k := by
        intro hkk
        apply hkeys.1
        rw [hkk]
        exact List.mem_map_of_mem Prod.fst hmem
      simp only [jsGet, if_neg hne]
      exact ih hkeys.2 hmem

/-! ## C1: conservation -/

/-- C1, as stated, fails at quantity 0: with stock and a price at the
destination the allocator returns one destination portion of quantity 0, not the
empty sequence. -/
theorem C1_zero_quantity_not_empty :
    getFulfillmentWithSplit itemA 0 "D" distA =
        [{ sourceCity := some "D", quantityFromCity := 0, unitPrice := 100, distanceKm := 0,
           outOfStock := false }] ∧
      getFulfillmentWithSplit itemA 0 "D" distA ≠ [] := by
  decide!

/-- C1, amended: for every item, destination, distance map and requested
quantity `q ≥ 0` the quantities of the returned portions sum to exactly `q`; for
`q = 0` the returned sequence is empty when the destination has no stock or no
price, and is the single destination portion of quantity 0 otherwise. -/
theorem C1_conservation (item : Item) (quantity : ℚ) (destinationCity : String)
    (distanceMap : DistanceMap) (hq : 0 ≤ quantity) :
    totalPortionQuantity (getFulfillmentWithSplit item quantity destinationCity distanceMap)
        = quantity ∧
      (quantity = 0 →
        getFulfillmentWithSplit item quantity destinationCity distanceMap =
          if 0 < stockAt item destinationCity ∧ 0 < priceAt item destinationCity then
            [{ sourceCity := some destinationCity, quantityFromCity := 0,
               unitPrice := priceAt item destinationCity, distanceKm := 0,
               outOfStock := false }]
          else []) := by
  constructor
  · have h1 := destinationStep_inv item quantity destinationCity hq
    have h2 := fallbackStep_inv item destinationCity distanceMap _ quantity h1
    unfold getFulfillmentWithSplit
    rw [shortfallStep_total _ h2.2]
    exact h2.1
  · intro h0
    subst h0
    unfold getFulfillmentWithSplit
    rw [destinationStep_eq]
    split_ifs with h
    · have hmin : min 0 (stockAt item destinationCity) = 0 := min_eq_left h.1.le
      rw [fallbackStep_of_not_pos _ _ _ _ (by simp [hmin]), shortfallStep_eq]
      simp [hmin]
    · rw [fallbackStep_of_not_pos _ _ _ _ (by simp), shortfallStep_eq]
      simp

/-- C1 at scenario 3: a request of 5 is split into 2 + 1 + 2. -/
theorem C1_conservation_witness :
    (0 : ℚ) ≤ 5 ∧
      totalPortionQuantity (getFulfillmentWithSplit itemA 5 "D" distA) = 5 :=
  ⟨by norm_num, (C1_conservation itemA 5 "D" distA (by norm_num)).1⟩

/-! ## C2: destination preference -/

/-- C2: when the stock and the price at the destination are both above zero, the
first returned portion is drawn from the destination at distance 0, at the
destination price, with quantity `min(q, stock at destination)`, whatever the
other cities offer (for every `q`, so in particular for `q > 0`). -/
theorem C2_destination_first (item : Item) (quantity : ℚ) (destinationCity : String)
    (distanceMap : DistanceMap)
    (hstock : 0 < stockAt item destinationCity) (hprice : 0 < priceAt item destinationCity) :
    (getFulfillmentWithSplit item quantity destinationCity distanceMap).head? =
      some { sourceCity := some destinationCity,
             quantityFromCity := min quantity (stockAt item destinationCity),
             unitPrice := priceAt item destinationCity, distanceKm := 0,
             outOfStock := false } := by
  obtain ⟨e₂, h₂⟩ := shortfallStep_prefix
    (fallbackStep item destinationCity distanceMap (destinationStep item quantity destinationCity))
  obtain ⟨e₁, h₁⟩ := fallbackStep_prefix item destinationCity distanceMap
    (destinationStep item quantity destinationCity)
  unfold getFulfillmentWithSplit
  rw [h₂, h₁, destinationStep_eq, if_pos ⟨hstock, hprice⟩]
  simp

/-- C2 at scenario 3: the first portion is 2 units from the destination `D`. -/
theorem C2_destination_first_witness :
    0 < stockAt itemA "D" ∧ 0 < priceAt itemA "D" ∧
      (getFulfillmentWithSplit itemA 5 "D" distA).head? =
        some { sourceCity := some "D", quantityFromCity := min 5 (stockAt itemA "D"),
               unitPrice := priceAt itemA "D", distanceKm := 0, outOfStock := false } :=
  ⟨by decide!, by decide!, C2_destination_first itemA 5 "D" distA (by decide!) (by decide!)⟩

/-! ## C3: ranking of the fallback city -/

/-- C3: when quantity remains after the destination step, every candidate
city has a known distance `≥ 0` to the destination and there is a candidate, the
result is the destination portions, then one fallback portion, then the
out-of-stock portion if something is still unmet; the fallback portion is drawn
from a candidate `chosen` whose distance is minimal among all candidates and
whose price is minimal among the candidates at that distance, and no candidate
met before `chosen` in the iteration order equals it in both distance and price. -/
theorem C3_fallback_ranking (item : Item) (quantity : ℚ) (destinationCity : String)
    (distanceMap : DistanceMap)
    (hrem : 0 < (destinationStep item quantity destinationCity).2)
    (hknown : ∀ e ∈ item.quantitiesByCity, IsCandidate item destinationCity e →
      ∃ d : ℚ, 0 ≤ d ∧ distanceGet distanceMap e.1 destinationCity = some d)
    (hcand : ∃ e ∈ item.quantitiesByCity, IsCandidate item destinationCity e) :
    ∃ before chosen after dChosen,
      item.quantitiesByCity = before ++ chosen :: after ∧
      IsCandidate item destinationCity chosen ∧
      distanceGet distanceMap chosen.1 destinationCity = some dChosen ∧
      getFulfillmentWithSplit item quantity destinationCity distanceMap =
        (destinationStep item quantity destinationCity).1 ++
          { sourceCity := some chosen.1,
            quantityFromCity :=
              min (destinationStep item quantity destinationCity).2 (parseNumber chosen.2),
            unitPrice := priceAt item chosen.1, distanceKm := dChosen, outOfStock := false } ::
          (if 0 < (destinationStep item quantity destinationCity).2 -
                min (destinationStep item quantity destinationCity).2 (parseNumber chosen.2) then
            [shortfallPortion ((destinationStep item quantity destinationCity).2 -
                min (destinationStep item quantity destinationCity).2 (parseNumber chosen.2))]
           else []) ∧
      (∀ e ∈ item.quantitiesByCity, IsCandidate item destinationCity e →
        ∀ d, distanceGet distanceMap e.1 destinationCity = some d →
          dChosen ≤ d ∧ (d = dChosen → priceAt item chosen.1 ≤ priceAt item e.1)) ∧
      (∀ e ∈ before, IsCandidate item destinationCity e →
        ∀ d, distanceGet distanceMap e.1 destinationCity = some d →
          ¬ (d = dChosen ∧ priceAt item e.1 = priceAt item chosen.1)) := by
  have hspec := findNearest_spec item destinationCity distanceMap
  cases hn : findNearest item destinationCity distanceMap with
  | none =>
    rw [hn] at hspec
    obtain ⟨e, he, hce⟩ := hcand
    exact absurd hce (hspec e he)
  | some n =>
    rw [hn] at hspec
    obtain ⟨before, chosen, after, hsplit, hch, hrec, hbefore, hafter⟩ := hspec
    obtain ⟨dChosen, -, hd⟩ := hknown chosen (by rw [hsplit]; simp) hch
    have hnd : n.distanceKm = dChosen := by
      rw [hrec]
      exact rankDistance_of_some _ _ _ _ hd
    have hnp : n.unitPrice = priceAt item chosen.1 := by rw [hrec]; rfl
    have hnq : n.quantityInCity = parseNumber chosen.2 := by rw [hrec]; rfl
    have hns : n.sourceCity = chosen.1 := by rw [hrec]; rfl
    refine ⟨before, chosen, after, dChosen, hsplit, hch, hd, ?_, ?_, ?_⟩
    · rw [getFulfillmentWithSplit_of_some _ _ _ _ n hrem hn]
      simp only [fallbackPortion, hnd, hnp, hnq, hns]
    · intro e he hce d hde
      have hrd := rankDistance_of_some _ _ _ _ hde
      rw [hsplit] at he
      rcases List.mem_append.mp he with hb | hb
      · have h := hbefore e hb hce
        rw [hnd, hnp, hrd] at h
        rcases h with h | ⟨h, h'⟩
        · exact ⟨h.le, fun heq => absurd heq.symm (ne_of_lt h)⟩
        · exact ⟨h.le, fun _ => h'.le⟩
      · rcases List.mem_cons.mp hb with rfl | ha
        · have : d = dChosen := by
            rw [hd] at hde
            exact (Option.some.inj hde).symm
          exact ⟨this.ge, fun _ => le_refl _⟩
        · have h := hafter e ha hce
          rw [hnd, hnp, hrd] at h
          rcases h with h | ⟨h, h'⟩
          · exact ⟨h.le, fun heq => absurd heq.symm (ne_of_lt h)⟩
          · exact ⟨h.le, fun _ => h'⟩
    · intro e he hce d hde
      have hrd := rankDistance_of_some _ _ _ _ hde
      have h := hbefore e he hce
      rw [hnd, hnp, hrd] at h
      rintro ⟨h₁, h₂⟩
      rcases h with h | ⟨-, h'⟩
      · exact absurd h₁.symm (ne_of_lt h)
      · exact absurd h₂.symm (ne_of_lt h')

/-- Scenario 2 evaluated: `Y` (80 at 150 km) is chosen over `X` (90 at 150 km),
and a request of 4 is one portion of 4 from `Y`. -/
theorem C3_fallback_ranking_witness :
    0 < (destinationStep itemXY 4 "D").2 ∧
      getFulfillmentWithSplit itemXY 4 "D" distXY =
        [{ sourceCity := some "Y", quantityFromCity := 4, unitPrice := 80, distanceKm := 150,
           outOfStock := false }] ∧
      ∃ before chosen after dChosen,
        itemXY.quantitiesByCity = before ++ chosen :: after ∧
        IsCandidate itemXY "D" chosen ∧
        distanceGet distXY chosen.1 "D" = some dChosen ∧
        getFulfillmentWithSplit itemXY 4 "D" distXY =
          (destinationStep itemXY 4 "D").1 ++
            { sourceCity := some chosen.1,
              quantityFromCity := min (destinationStep itemXY 4 "D").2 (parseNumber chosen.2),
              unitPrice := priceAt itemXY chosen.1, distanceKm := dChosen,
              outOfStock := false } ::
            (if 0 < (destinationStep itemXY 4 "D").2 -
                  min (destinationStep itemXY 4 "D").2 (parseNumber chosen.2) then
              [shortfallPortion ((destinationStep itemXY 4 "D").2 -
                  min (destinationStep itemXY 4 "D").2 (parseNumber chosen.2))]
             else []) ∧
        (∀ e ∈ itemXY.quantitiesByCity, IsCandidate itemXY "D" e →
          ∀ d, distanceGet distXY e.1 "D" = some d →
            dChosen ≤ d ∧ (d = dChosen → priceAt itemXY chosen.1 ≤ priceAt itemXY e.1)) ∧
        (∀ e ∈ before, IsCandidate itemXY "D" e →
          ∀ d, distanceGet distXY e.1 "D" = some d →
            ¬ (d = dChosen ∧ priceAt itemXY e.1 = priceAt itemXY chosen.1)) :=
  ⟨by decide!, by decide!,
    C3_fallback_ranking itemXY 4 "D" distXY (by decide!)
      (by
        intro e he _
        have he' : e = ("D", some 0) ∨ e = ("X", some 10) ∨ e = ("Y", some 10) := by
          simpa [itemXY] using he
        rcases he' with rfl | rfl | rfl
        · exact ⟨0, le_refl _, by decide!⟩
        · exact ⟨150, by norm_num, by decide!⟩
        · exact ⟨150, by norm_num, by decide!⟩)
      ⟨("X", some 10), by decide!, by decide!⟩⟩

/-! ## C4: a city without a distance entry -/

/-- C4, evaluated where the code departs from it: `A` has no distance to `D` and
`B` has the known distance 100, and the allocator draws from `A`, at distance 0:
the missing distance is ranked as zero, before the known one. -/
theorem C4_missing_distance_ranked_as_zero :
    distanceGet distAB "A" "D" = none ∧ distanceGet distAB "B" "D" = some 100 ∧
      rankDistance distAB "A" "D" = 0 ∧
      getFulfillmentWithSplit itemAB 3 "D" distAB =
        [{ sourceCity := some "A", quantityFromCity := 3, unitPrice := 50, distanceKm := 0,
           outOfStock := false }] := by
  decide!

/-! ## C5: at most one fallback portion -/

theorem filter_destinationStep (item : Item) (quantity : ℚ) (destinationCity : String) :
    (destinationStep item quantity destinationCity).1.filter (isFallbackSource destinationCity)
      = [] := by
  rw [List.filter_eq_nil_iff]
  intro p hp
  obtain ⟨-, -, rfl⟩ := mem_destinationStep item quantity destinationCity p hp
  simp [isFallbackSource]

/-- C5: among the portions returned for one request at most one has a source
city that is neither `null` nor the destination city. -/
theorem C5_single_fallback_bound (item : Item) (quantity : ℚ) (destinationCity : String)
    (distanceMap : DistanceMap) :
    ((getFulfillmentWithSplit item quantity destinationCity distanceMap).filter
      (isFallbackSource destinationCity)).length ≤ 1 := by
  by_cases hr : 0 < (destinationStep item quantity destinationCity).2
  · cases hn : findNearest item destinationCity distanceMap with
    | none =>
      rw [getFulfillmentWithSplit_of_none _ _ _ _ hn, List.filter_append,
        filter_destinationStep, if_pos hr]
      simp [isFallbackSource, shortfallPortion]
    | some n =>
      rw [getFulfillmentWithSplit_of_some _ _ _ _ n hr hn, List.filter_append,
        filter_destinationStep, List.nil_append]
      have hrest : ∀ r : ℚ, (if 0 < r then [shortfallPortion r] else []).filter
          (isFallbackSource destinationCity) = [] := by
        intro r
        split_ifs <;> simp [isFallbackSource, shortfallPortion]
      rw [List.filter_cons, hrest]
      split_ifs <;> simp
  · rw [getFulfillmentWithSplit_of_not_pos _ _ _ _ hr, filter_destinationStep]
    simp

/-! ## C6: only sellable sources, never over-drawn -/

/-- C6, as stated for every requested quantity, fails at quantity 0: `itemXY`
has stock 10 at `X`, and for destination `X` and quantity 0 the allocator
returns a portion from `X` whose quantity is 0, not above 0. -/
theorem C6_zero_quantity_portion :
    ¬ ∀ p ∈ getFulfillmentWithSplit itemXY 0 "X" distXY,
        ∀ c, p.sourceCity = some c → SellableSource itemXY p c := by
  intro h
  have hp := h { sourceCity := some "X", quantityFromCity := 0, unitPrice := 90, distanceKm := 0,
                 outOfStock := false } (by decide!) "X" rfl
  exact absurd hp.2.2.2.1 (lt_irrefl _)

/-- C6, amended: for a requested quantity `q > 0` (the city keys of the item's
stock object being distinct, as the keys of every JavaScript object are), every
returned portion with a non-null source city is drawn from a city where the
item's stock and price are both above zero, at that city's price, with a
quantity above zero and at most the stock there. -/
theorem C6_sellable_sources (item : Item) (quantity : ℚ) (destinationCity : String)
    (distanceMap : DistanceMap) (hq : 0 < quantity)
    (hkeys : (item.quantitiesByCity.map Prod.fst).Nodup) :
    ∀ p ∈ getFulfillmentWithSplit item quantity destinationCity distanceMap,
      ∀ c, p.sourceCity = some c → SellableSource item p c := by
  intro p hp c hc
  rcases mem_getFulfillmentWithSplit item quantity destinationCity distanceMap p hp with
    h | ⟨n, hr, hn, rfl⟩ | ⟨r, rfl⟩
  · obtain ⟨hs, hpr, rfl⟩ := mem_destinationStep item quantity destinationCity p h
    have hcd : destinationCity = c := Option.some.inj hc
    subst hcd
    exact ⟨hs, hpr, rfl, lt_min hq hs, min_le_right _ _⟩
  · have hspec := findNearest_spec item destinationCity distanceMap
    rw [hn] at hspec
    obtain ⟨before, chosen, after, hsplit, hch, hrec, -, -⟩ := hspec
    have hcc : chosen.1 = c := by
      have : n.sourceCity = c := Option.some.inj hc
      rw [hrec] at this
      exact this
    have hmem : (chosen.1, chosen.2) ∈ item.quantitiesByCity := by
      rw [hsplit]
      simp
    have hstock : stockAt item chosen.1 = parseNumber chosen.2 := by
      unfold stockAt
      rw [jsGet_of_mem item.quantitiesByCity hkeys chosen.1 chosen.2 hmem]
    subst hcc
    obtain ⟨-, hpos, hprice⟩ := hch
    have hnq : n.quantityInCity = parseNumber chosen.2 := by rw [hrec]; rfl
    have hnp : n.unitPrice = priceAt item chosen.1 := by rw [hrec]; rfl
    refine ⟨hstock ▸ hpos, hprice, hnp, ?_, ?_⟩
    · exact lt_min hr (hnq ▸ hpos)
    · rw [hstock, ← hnq]
      exact min_le_right _ _
  · simp [shortfallPortion] at hc

/-- C6 at scenario 3: the portions of 2 from `D` and of 1 from `Z` are within
the stock there; the out-of-stock portion has no source. -/
theorem C6_sellable_sources_witness :
    (0 : ℚ) < 5 ∧ (itemA.quantitiesByCity.map Prod.fst).Nodup ∧
      ∀ p ∈ getFulfillmentWithSplit itemA 5 "D" distA,
        ∀ c, p.sourceCity = some c → SellableSource itemA p c :=
  ⟨by norm_num, by decide!, C6_sellable_sources itemA 5 "D" distA (by norm_num) (by decide!)⟩

/-! ## The order summary: what the loops maintain -/

theorem availableCost_concat (l : List FulfillmentDetail) (d : FulfillmentDetail) :
    availableCost (l ++ [d]) =
      if isAvailable d = true then fadd (availableCost l) (fmul d.unitPrice d.quantity)
      else availableCost l := by
  unfold availableCost doubleSum
  rw [List.filter_append]
  by_cases h : isAvailable d = true
  · rw [if_pos h]
    simp [List.filter_cons, h, List.foldl_append]
  · rw [if_neg h]
    simp [List.filter_cons, h]

theorem availableSurcharge_append (l₁ l₂ : List FulfillmentDetail) :
    availableSurcharge (l₁ ++ l₂) = availableSurcharge l₁ + availableSurcharge l₂ := by
  simp [availableSurcharge]

theorem portionStep_inv (item : Item) (s : LineState) (f : Fulfillment) (h : AccInv s.acc) :
    AccInv (portionStep item s f).acc := by
  obtain ⟨hc, hd, ho⟩ := h
  have hlast : ∀ d ∈ s.acc.fulfillmentDetails ++
      [({ itemId := item.itemId, productName := item.productName,
          quantity := f.quantityFromCity, sourceCity := f.sourceCity, unitPrice := f.unitPrice,
          distanceKm := f.distanceKm, isFallback := some (decide (f.distanceKm > 0)),
          status := Status.AVAILABLE } : FulfillmentDetail)],
      d.status = Status.OUT_OF_STOCK → d.sourceCity = none ∧ d.unitPrice = 0 ∧ d.distanceKm = 0 := by
    intro d hmem hst
    rcases List.mem_append.mp hmem with h' | h'
    · exact ho d h' hst
    · have : d = _ := List.mem_singleton.mp h'
      subst this
      simp at hst
  unfold portionStep
  split_ifs with hm hpos
  · refine ⟨?_, ?_, ?_⟩
    · rw [availableCost_concat, if_neg (by simp [isAvailable])]
      exact hc
    · simp only [availableSurcharge_append, Int.cast_add, ← hd]
      simp [availableSurcharge, isAvailable]
    · intro d hmem hst
      rcases List.mem_append.mp hmem with h' | h'
      · exact ho d h' hst
      · have : d = _ := List.mem_singleton.mp h'
        subst this
        exact ⟨rfl, rfl, rfl⟩
  · have hpos' : 0 < f.distanceKm := hpos
    refine ⟨?_, ?_, hlast⟩
    · rw [availableCost_concat, if_pos (by simp [isAvailable]), ← hc]
    · simp only [availableSurcharge_append, Int.cast_add, ← hd]
      simp [availableSurcharge, isAvailable, portionSurcharge, hpos', mul_comm]
  · have hpos' : ¬ 0 < f.distanceKm := hpos
    refine ⟨?_, ?_, hlast⟩
    · rw [availableCost_concat, if_pos (by simp [isAvailable]), ← hc]
    · simp only [availableSurcharge_append, Int.cast_add, ← hd]
      simp [availableSurcharge, isAvailable, hpos']

theorem foldl_portionStep_inv (item : Item) (fulfillments : List Fulfillment) (s : LineState)
    (h : AccInv s.acc) : AccInv (fulfillments.foldl (portionStep item) s).acc := by
  induction fulfillments generalizing s with
  | nil => exact h
  | cons f rest ih => exact ih _ (portionStep_inv item s f h)

theorem lineStep_inv (destinationCity : String) (data : Data) (acc : Acc)
    (orderItem : OrderItem) (h : AccInv acc) :
    AccInv (lineStep destinationCity data acc orderItem) := by
  unfold lineStep
  cases data.items.find? (fun entry => decide (entry.itemId = orderItem.itemId)) with
  | none => exact h
  | some item =>
    simp only
    split_ifs with hq hs
    · exact h
    · exact foldl_portionStep_inv item _ _ h
    · exact foldl_portionStep_inv item _ _ h

theorem runLines_inv (orderItems : List OrderItem) (destinationCity : String) (data : Data) :
    AccInv (runLines orderItems destinationCity data) := by
  unfold runLines
  have key : ∀ (l : List OrderItem) (acc : Acc), AccInv acc →
      AccInv (l.foldl (lineStep destinationCity data) acc) := by
    intro l
    induction l with
    | nil => intro acc h; exact h
    | cons oi rest ih => intro acc h; exact ih _ (lineStep_inv destinationCity data acc oi h)
  apply key
  refine ⟨?_, ?_, ?_⟩
  · rfl
  · simp [availableSurcharge]
  · intro d hd
    simp at hd

theorem jsRound_intCast (n : ℤ) : jsRound (n : ℚ) = n := by
  unfold jsRound
  rw [Int.floor_int_add]
  have : ⌊(1 / 2 : ℚ)⌋ = 0 := by
    rw [Int.floor_eq_iff]
    norm_num
  rw [this, add_zero]

theorem jsRound_add_intCast (x : ℚ) (n : ℤ) : jsRound (x + n) = jsRound x + n := by
  unfold jsRound
  rw [add_right_comm, Int.floor_add_int]

/-! ## C7: items cost -/

/-- C7: the returned `itemsCost` is `round` of the sum of `unitPrice × quantity`
over the `AVAILABLE` records of `fulfillmentDetails`, each product and each
partial sum being the JavaScript number the source computes, in record order;
an `OUT_OF_STOCK` record has no source, unit price 0 and distance 0, and the
returned `deliveryCharge` is `round` of a sum over `AVAILABLE` records only, so
such a record adds nothing to either amount. At the price written 0.7 and
quantity 45 the sum is 31.499999999999996 and `itemsCost` is 31. -/
theorem C7_items_cost (orderItems : List OrderItem) (destinationCity : String) (data : Data) :
    (calculateOrderSummary orderItems destinationCity data).itemsCost =
        jsRound (availableCost
          (calculateOrderSummary orderItems destinationCity data).fulfillmentDetails) ∧
      (calculateOrderSummary orderItems destinationCity data).deliveryCharge =
        jsRound ((availableSurcharge
          (calculateOrderSummary orderItems destinationCity data).fulfillmentDetails : ℤ) : ℚ) ∧
      (∀ d ∈ (calculateOrderSummary orderItems destinationCity data).fulfillmentDetails,
        d.status = Status.OUT_OF_STOCK →
          d.sourceCity = none ∧ fmul d.unitPrice d.quantity = 0 ∧ d.distanceKm = 0) ∧
      availableCost (calculateOrderSummary [{ itemId := 6, quantity := some 45 }] "D"
          { items := [itemFrac], distanceMap := distFrac }).fulfillmentDetails =
        63 / 2 - 1 / 2 ^ 48 ∧
      (calculateOrderSummary [{ itemId := 6, quantity := some 45 }] "D"
          { items := [itemFrac], distanceMap := distFrac }).itemsCost = 31 := by
  obtain ⟨hc, hd, ho⟩ := runLines_inv orderItems destinationCity data
  refine ⟨?_, ?_, ?_, by decide!, by decide!⟩
  · simp only [calculateOrderSummary]
    rw [hc]
  · simp only [calculateOrderSummary]
    rw [hd]
  · intro d hmem hst
    obtain ⟨h₁, h₂, h₃⟩ := ho d hmem hst
    exact ⟨h₁, by rw [h₂, fmul, zero_mul, toDouble_zero], h₃⟩

/-! ## C8: the delivery surcharge -/

/-- C8: the returned `deliveryCharge` is the sum, over the `AVAILABLE` records
of `fulfillmentDetails` with `distanceKm > 0`, of `10 × ceil(distanceKm / 100)`,
one term for each such record; a record with `distanceKm = 0` is not in the sum. -/
theorem C8_delivery_charge (orderItems : List OrderItem) (destinationCity : String)
    (data : Data) :
    (calculateOrderSummary orderItems destinationCity data).deliveryCharge =
      (((calculateOrderSummary orderItems destinationCity data).fulfillmentDetails.filter
          (fun d => isAvailable d && decide (0 < d.distanceKm))).map
        (fun d => 10 * jsCeil (d.distanceKm / 100))).sum := by
  obtain ⟨-, hd, -⟩ := runLines_inv orderItems destinationCity data
  simp only [calculateOrderSummary]
  rw [hd, jsRound_intCast]
  rfl

/-! ## C9: the rounding of the total -/

/-- C9, as stated, fails on a fractional price: 45 units at the price written
0.7, drawn from 100 km away. The raw items cost is the JavaScript product
`0.7 * 45 = 31.499999999999996`, so `itemsCost` is 31 and `deliveryCharge` is 10,
while the raw sum is the JavaScript number 41.5 and `totalCost` is 42, not
`round(31 + 10) = 41`. -/
theorem C9_total_rounds_raw_sum_once :
    (runLines [{ itemId := 6, quantity := some 45 }] "D"
        { items := [itemFrac], distanceMap := distFrac }).itemsCost =
      63 / 2 - 1 / 2 ^ 48 ∧
    (calculateOrderSummary [{ itemId := 6, quantity := some 45 }] "D"
        { items := [itemFrac], distanceMap := distFrac }).itemsCost = 31 ∧
    (calculateOrderSummary [{ itemId := 6, quantity := some 45 }] "D"
        { items := [itemFrac], distanceMap := distFrac }).deliveryCharge = 10 ∧
    (calculateOrderSummary [{ itemId := 6, quantity := some 45 }] "D"
        { items := [itemFrac], distanceMap := distFrac }).totalCost = 42 ∧
    jsRound (((jsRound (runLines [{ itemId := 6, quantity := some 45 }] "D"
          { items := [itemFrac], distanceMap := distFrac }).itemsCost : ℤ) : ℚ) +
        ((jsRound (runLines [{ itemId := 6, quantity := some 45 }] "D"
          { items := [itemFrac], distanceMap := distFrac }).deliveryCharge : ℤ) : ℚ)) = 41 := by
  decide!

/-- C9, amended: the returned `totalCost` is one rounding, `round` of the
JavaScript sum of the raw `itemsCost` and the raw `deliveryCharge`; whenever
that sum is formed without rounding error it equals the rounded sum of the two
rounded amounts and the returned `itemsCost` plus the returned
`deliveryCharge`; at the price written 0.7, quantity 45 and 100 km the sum is
not exact, `totalCost` is 42, and `itemsCost + deliveryCharge` is 41. -/
theorem C9_total_cost (orderItems : List OrderItem) (destinationCity : String) (data : Data) :
    (calculateOrderSummary orderItems destinationCity data).totalCost =
        jsRound (fadd (runLines orderItems destinationCity data).itemsCost
          (runLines orderItems destinationCity data).deliveryCharge) ∧
      (fadd (runLines orderItems destinationCity data).itemsCost
            (runLines orderItems destinationCity data).deliveryCharge =
          (runLines orderItems destinationCity data).itemsCost +
            (runLines orderItems destinationCity data).deliveryCharge →
        (calculateOrderSummary orderItems destinationCity data).totalCost =
            jsRound (((jsRound (runLines orderItems destinationCity data).itemsCost : ℤ) : ℚ) +
              ((jsRound (runLines orderItems destinationCity data).deliveryCharge : ℤ) : ℚ)) ∧
          (calculateOrderSummary orderItems destinationCity data).totalCost =
            (calculateOrderSummary orderItems destinationCity data).itemsCost +
              (calculateOrderSummary orderItems destinationCity data).deliveryCharge) ∧
      (calculateOrderSummary [{ itemId := 6, quantity := some 45 }] "D"
          { items := [itemFrac], distanceMap := distFrac }).totalCost = 42 ∧
      (calculateOrderSummary [{ itemId := 6, quantity := some 45 }] "D"
          { items := [itemFrac], distanceMap := distFrac }).itemsCost +
        (calculateOrderSummary [{ itemId := 6, quantity := some 45 }] "D"
          { items := [itemFrac], distanceMap := distFrac }).deliveryCharge = 41 := by
  obtain ⟨-, hd, -⟩ := runLines_inv orderItems destinationCity data
  refine ⟨rfl, ?_, by decide!, by decide!⟩
  intro hexact
  simp only [calculateOrderSummary]
  rw [hexact, hd, jsRound_intCast, jsRound_add_intCast, ← Int.cast_add, jsRound_intCast]
  exact ⟨rfl, rfl⟩

/-- C9 at scenario 3, where every amount is a whole number: the raw sum
295 + 10 is formed exactly and `totalCost` is `itemsCost + deliveryCharge`. -/
theorem C9_total_cost_witness :
    fadd (runLines [{ itemId := 1, quantity := some 5 }] "D"
          { items := [itemA], distanceMap := distA }).itemsCost
        (runLines [{ itemId := 1, quantity := some 5 }] "D"
          { items := [itemA], distanceMap := distA }).deliveryCharge =
      (runLines [{ itemId := 1, quantity := some 5 }] "D"
          { items := [itemA], distanceMap := distA }).itemsCost +
        (runLines [{ itemId := 1, quantity := some 5 }] "D"
          { items := [itemA], distanceMap := distA }).deliveryCharge ∧
    (calculateOrderSummary [{ itemId := 1, quantity := some 5 }] "D"
        { items := [itemA], distanceMap := distA }).totalCost =
      (calculateOrderSummary [{ itemId := 1, quantity := some 5 }] "D"
          { items := [itemA], distanceMap := distA }).itemsCost +
        (calculateOrderSummary [{ itemId := 1, quantity := some 5 }] "D"
          { items := [itemA], distanceMap := distA }).deliveryCharge :=
  ⟨by decide!,
    ((C9_total_cost [{ itemId := 1, quantity := some 5 }] "D"
      { items := [itemA], distanceMap := distA }).2.1 (by decide!)).2⟩

/-! ## C10: total quantity -/

theorem foldl_portionStep_totalQuantity (item : Item) (fulfillments : List Fulfillment)
    (s : LineState) :
    (fulfillments.foldl (portionStep item) s).acc.totalQuantity = s.acc.totalQuantity := by
  induction fulfillments generalizing s with
  | nil => rfl
  | cons f rest ih =>
    rw [List.foldl_cons, ih]
    unfold portionStep
    split_ifs <;> rfl

theorem foldl_portionStep_itemHasStock (item : Item) (fulfillments : List Fulfillment)
    (s : LineState) :
    (fulfillments.foldl (portionStep item) s).itemHasStock =
      (s.itemHasStock || fulfillments.any hasSource) := by
  induction fulfillments generalizing s with
  | nil => simp
  | cons f rest ih =>
    rw [List.foldl_cons, ih, List.any_cons]
    unfold portionStep
    split_ifs with hm
    · simp [hasSource, hm]
    · simp [hasSource, hm]
    · simp [hasSource, hm]

theorem lineStep_totalQuantity (destinationCity : String) (data : Data) (acc : Acc)
    (orderItem : OrderItem) :
    (lineStep destinationCity data acc orderItem).totalQuantity =
      acc.totalQuantity + lineQuantity destinationCity data orderItem := by
  unfold lineStep lineQuantity
  cases data.items.find? (fun entry => decide (entry.itemId = orderItem.itemId)) with
  | none => simp
  | some item =>
    simp only
    split_ifs
    all_goals simp_all [foldl_portionStep_totalQuantity, foldl_portionStep_itemHasStock]

theorem foldl_lineStep_totalQuantity (destinationCity : String) (data : Data)
    (orderItems : List OrderItem) (acc : Acc) :
    (orderItems.foldl (lineStep destinationCity data) acc).totalQuantity =
      acc.totalQuantity + (orderItems.map (lineQuantity destinationCity data)).sum := by
  induction orderItems generalizing acc with
  | nil => simp
  | cons oi rest ih =>
    rw [List.foldl_cons, ih, lineStep_totalQuantity, List.map_cons, List.sum_cons, add_assoc]

/-- C10, as stated, fails at its own example: destination stock 2, one other
source with stock 1, request 5. The `AVAILABLE` records carry 2 + 1 = 3, the
`OUT_OF_STOCK` record carries 2, and `totalQuantity` is 5. -/
theorem C10_counts_whole_request :
    (calculateOrderSummary [{ itemId := 1, quantity := some 5 }] "D"
        { items := [itemA], distanceMap := distA }).totalQuantity = 5 ∧
      availableQuantity
        (calculateOrderSummary [{ itemId := 1, quantity := some 5 }] "D"
          { items := [itemA], distanceMap := distA }).fulfillmentDetails = 3 := by
  decide!

/-- C10, amended: `totalQuantity` is the sum, over the order lines whose item
is in the catalog and for which the allocator returns at least one portion with
a source, of the line's whole requested quantity `max(0, parseNumber(quantity))`;
the part of such a line recorded as `OUT_OF_STOCK` is counted too. -/
theorem C10_total_quantity (orderItems : List OrderItem) (destinationCity : String)
    (data : Data) :
    (calculateOrderSummary orderItems destinationCity data).totalQuantity =
      (orderItems.map (lineQuantity destinationCity data)).sum := by
  simp only [calculateOrderSummary, runLines]
  rw [foldl_lineStep_totalQuantity]
  simp

/-! ## The order summary, line by line -/

theorem maxFromZero_nonneg (l : List ℚ) : 0 ≤ maxFromZero l := by
  induction l with
  | nil => exact le_refl _
  | cons x rest ih => exact le_trans ih (le_max_right _ _)

theorem maxFromZero_append (l₁ l₂ : List ℚ) :
    maxFromZero (l₁ ++ l₂) = max (maxFromZero l₁) (maxFromZero l₂) := by
  induction l₁ with
  | nil =>
    have h := maxFromZero_nonneg l₂
    simp only [List.nil_append]
    exact (max_eq_right h).symm
  | cons x rest ih =>
    have hc : ∀ l : List ℚ, maxFromZero (x :: l) = max x (maxFromZero l) := fun _ => rfl
    rw [List.cons_append, hc, hc, ih, max_assoc]

theorem le_maxFromZero_of_mem (l : List ℚ) (x : ℚ) (h : x ∈ l) : x ≤ maxFromZero l := by
  induction l with
  | nil => simp at h
  | cons y rest ih =>
    rcases List.mem_cons.mp h with rfl | h'
    · exact le_max_left _ _
    · exact le_trans (ih h') (le_max_right _ _)

theorem maxFromZero_eq_zero_or_mem (l : List ℚ) : maxFromZero l = 0 ∨ maxFromZero l ∈ l := by
  induction l with
  | nil => exact Or.inl rfl
  | cons y rest ih =>
    have hc : maxFromZero (y :: rest) = max y (maxFromZero rest) := rfl
    rcases le_total y (maxFromZero rest) with hle | hle
    · rw [hc, max_eq_right hle]
      rcases ih with h0 | hm
      · exact Or.inl h0
      · exact Or.inr (List.mem_cons_of_mem _ hm)
    · rw [hc, max_eq_left hle]
      exact Or.inr (List.mem_cons_self _ _)

theorem portionStep_details (item : Item) (s : LineState) (f : Fulfillment) :
    (portionStep item s f).acc.fulfillmentDetails =
      s.acc.fulfillmentDetails ++ [detailOf item f] := by
  unfold portionStep detailOf
  split_ifs <;> rfl

theorem foldl_portionStep_details (item : Item) (fulfillments : List Fulfillment)
    (s : LineState) :
    (fulfillments.foldl (portionStep item) s).acc.fulfillmentDetails =
      s.acc.fulfillmentDetails ++ fulfillments.map (detailOf item) := by
  induction fulfillments generalizing s with
  | nil => simp
  | cons f rest ih =>
    rw [List.foldl_cons, ih, portionStep_details]
    simp

theorem foldl_portionStep_maxDistanceKm (item : Item) (fulfillments : List Fulfillment)
    (s : LineState) :
    (fulfillments.foldl (portionStep item) s).acc.maxDistanceKm = s.acc.maxDistanceKm := by
  induction fulfillments generalizing s with
  | nil => rfl
  | cons f rest ih =>
    rw [List.foldl_cons, ih]
    unfold portionStep
    split_ifs <;> rfl

theorem foldl_portionStep_maxItemDistance (item : Item) (fulfillments : List Fulfillment)
    (s : LineState) (h0 : 0 ≤ s.maxItemDistance) :
    (fulfillments.foldl (portionStep item) s).maxItemDistance =
      max s.maxItemDistance (maxFromZero (sourcedDistances fulfillments)) := by
  induction fulfillments generalizing s with
  | nil =>
    have hz : maxFromZero (sourcedDistances []) = 0 := rfl
    rw [hz, max_eq_left h0]
    rfl
  | cons f rest ih =>
    rw [List.foldl_cons]
    by_cases hm : sourceMissing f.sourceCity = true
    · have hmax : (portionStep item s f).maxItemDistance = s.maxItemDistance := by
        unfold portionStep
        rw [if_pos hm]
      have hsd : sourcedDistances (f :: rest) = sourcedDistances rest := by
        simp [sourcedDistances, hasSource, hm]
      rw [ih _ (hmax ▸ h0), hmax, hsd]
    · have hmax : (portionStep item s f).maxItemDistance = max s.maxItemDistance f.distanceKm := by
        unfold portionStep
        rw [if_neg hm]
      have hsd : sourcedDistances (f :: rest) = f.distanceKm :: sourcedDistances rest := by
        simp [sourcedDistances, hasSource, hm]
      have hc : maxFromZero (f.distanceKm :: sourcedDistances rest) =
          max f.distanceKm (maxFromZero (sourcedDistances rest)) := rfl
      rw [ih _ (hmax ▸ le_trans h0 (le_max_left _ _)), hmax, hsd, hc, max_assoc]

theorem availableDistances_append (l₁ l₂ : List FulfillmentDetail) :
    availableDistances (l₁ ++ l₂) = availableDistances l₁ ++ availableDistances l₂ := by
  simp [availableDistances]

theorem availableDistances_map_detailOf (item : Item) (fulfillments : List Fulfillment) :
    availableDistances (fulfillments.map (detailOf item)) = sourcedDistances fulfillments := by
  induction fulfillments with
  | nil => rfl
  | cons f rest ih =>
    have hcons : availableDistances (detailOf item f :: rest.map (detailOf item)) =
        availableDistances [detailOf item f] ++ availableDistances (rest.map (detailOf item)) :=
      availableDistances_append [detailOf item f] _
    rw [List.map_cons, hcons, ih]
    by_cases hm : sourceMissing f.sourceCity = true
    · simp [availableDistances, sourcedDistances, detailOf, hasSource, hm, isAvailable]
    · simp [availableDistances, sourcedDistances, detailOf, hasSource, hm, isAvailable]

theorem sourcedDistances_eq_nil_of_not_any (fulfillments : List Fulfillment)
    (h : ¬ fulfillments.any hasSource = true) : sourcedDistances fulfillments = [] := by
  unfold sourcedDistances
  rw [List.map_eq_nil_iff, List.filter_eq_nil_iff]
  intro f hf hs
  exact h (List.any_eq_true.mpr ⟨f, hf, hs⟩)

/-- One order line appends its detail records. -/
theorem lineStep_details (destinationCity : String) (data : Data) (acc : Acc)
    (orderItem : OrderItem) :
    (lineStep destinationCity data acc orderItem).fulfillmentDetails =
      acc.fulfillmentDetails ++ lineDetails destinationCity data orderItem := by
  unfold lineStep lineDetails linePortions
  cases data.items.find? (fun entry => decide (entry.itemId = orderItem.itemId)) with
  | none => simp
  | some item =>
    simp only
    split_ifs
    all_goals simp [foldl_portionStep_details]

/-- One order line folds the distances of its sourced portions into
`maxDistanceKm`. -/
theorem lineStep_maxDistanceKm (destinationCity : String) (data : Data) (acc : Acc)
    (orderItem : OrderItem) (h0 : 0 ≤ acc.maxDistanceKm) :
    (lineStep destinationCity data acc orderItem).maxDistanceKm =
      max acc.maxDistanceKm
        (maxFromZero (sourcedDistances (linePortions destinationCity data orderItem))) := by
  have hz : maxFromZero (sourcedDistances []) = 0 := rfl
  unfold lineStep linePortions
  cases data.items.find? (fun entry => decide (entry.itemId = orderItem.itemId)) with
  | none =>
    simp only
    rw [hz, max_eq_left h0]
  | some item =>
    simp only
    by_cases hq : max 0 (parseNumber orderItem.quantity) = 0
    · rw [if_pos hq, if_pos hq, hz, max_eq_left h0]
    · rw [if_neg hq, if_neg hq]
      by_cases hs : (List.foldl (portionStep item)
          { acc := acc, itemHasStock := false, totalItemCost := 0, maxItemDistance := 0 }
          (getFulfillmentWithSplit item (max 0 (parseNumber orderItem.quantity)) destinationCity
            data.distanceMap)).itemHasStock = true
      · rw [if_pos hs]
        simp only
        rw [foldl_portionStep_maxDistanceKm,
          foldl_portionStep_maxItemDistance _ _ _ (le_refl _),
          max_eq_right (maxFromZero_nonneg _)]
      · rw [if_neg hs, foldl_portionStep_maxDistanceKm]
        rw [foldl_portionStep_itemHasStock] at hs
        have hany : ¬ (getFulfillmentWithSplit item (max 0 (parseNumber orderItem.quantity))
            destinationCity data.distanceMap).any hasSource = true := by
          simpa using hs
        rw [sourcedDistances_eq_nil_of_not_any _ hany]
        exact (max_eq_left h0).symm

theorem sourcedDistances_append (l₁ l₂ : List Fulfillment) :
    sourcedDistances (l₁ ++ l₂) = sourcedDistances l₁ ++ sourcedDistances l₂ := by
  simp [sourcedDistances]

theorem availableDistances_lineDetails (destinationCity : String) (data : Data)
    (orderItem : OrderItem) :
    availableDistances (lineDetails destinationCity data orderItem) =
      sourcedDistances (linePortions destinationCity data orderItem) := by
  unfold lineDetails
  cases hf : data.items.find? (fun entry => decide (entry.itemId = orderItem.itemId)) with
  | none => simp [linePortions, hf, availableDistances, sourcedDistances]
  | some item => exact availableDistances_map_detailOf item _

theorem availableDistances_orderDetails (destinationCity : String) (data : Data)
    (orderItems : List OrderItem) :
    availableDistances (orderDetails destinationCity data orderItems) =
      sourcedDistances (orderPortions destinationCity data orderItems) := by
  induction orderItems with
  | nil => rfl
  | cons oi rest ih =>
    simp only [orderDetails, orderPortions, availableDistances_append, sourcedDistances_append,
      availableDistances_lineDetails, ih]

theorem foldl_lineStep_details (destinationCity : String) (data : Data)
    (orderItems : List OrderItem) (acc : Acc) :
    (orderItems.foldl (lineStep destinationCity data) acc).fulfillmentDetails =
      acc.fulfillmentDetails ++ orderDetails destinationCity data orderItems := by
  induction orderItems generalizing acc with
  | nil => simp [orderDetails]
  | cons oi rest ih =>
    rw [List.foldl_cons, ih, lineStep_details, orderDetails, List.append_assoc]

theorem foldl_lineStep_maxDistanceKm (destinationCity : String) (data : Data)
    (orderItems : List OrderItem) (acc : Acc) (h0 : 0 ≤ acc.maxDistanceKm) :
    (orderItems.foldl (lineStep destinationCity data) acc).maxDistanceKm =
      max acc.maxDistanceKm
        (maxFromZero (sourcedDistances (orderPortions destinationCity data orderItems))) := by
  induction orderItems generalizing acc with
  | nil =>
    have hz : maxFromZero (sourcedDistances (orderPortions destinationCity data [])) = 0 := rfl
    rw [hz, max_eq_left h0]
    rfl
  | cons oi rest ih =>
    have hstep := lineStep_maxDistanceKm destinationCity data acc oi h0
    rw [List.foldl_cons, ih _ (hstep ▸ le_trans h0 (le_max_left _ _)), hstep, orderPortions,
      sourcedDistances_append, maxFromZero_append, max_assoc]

/-- The detail records of the summary are those of the order lines, in order. -/
theorem calculateOrderSummary_details (orderItems : List OrderItem) (destinationCity : String)
    (data : Data) :
    (calculateOrderSummary orderItems destinationCity data).fulfillmentDetails =
      orderDetails destinationCity data orderItems := by
  simp only [calculateOrderSummary, runLines]
  rw [foldl_lineStep_details]
  rfl

/-- The returned `distanceKm` is the greatest distance, counted from 0, of the
portions with a source. -/
theorem calculateOrderSummary_distanceKm (orderItems : List OrderItem)
    (destinationCity : String) (data : Data) :
    (calculateOrderSummary orderItems destinationCity data).distanceKm =
      maxFromZero (sourcedDistances (orderPortions destinationCity data orderItems)) := by
  simp only [calculateOrderSummary, runLines]
  rw [foldl_lineStep_maxDistanceKm _ _ _ _ (le_refl _)]
  exact max_eq_right (maxFromZero_nonneg _)

/-! ## C11: the arrival estimate -/

theorem rankDistance_nonneg (distanceMap : DistanceMap) (hdist : DistancesNonneg distanceMap)
    (city destinationCity : String) : 0 ≤ rankDistance distanceMap city destinationCity := by
  unfold rankDistance
  rw [numOrZero_eq]
  exact hdist city destinationCity

theorem getFulfillmentWithSplit_distance_nonneg (item : Item) (quantity : ℚ)
    (destinationCity : String) (distanceMap : DistanceMap)
    (hdist : DistancesNonneg distanceMap) :
    ∀ f ∈ getFulfillmentWithSplit item quantity destinationCity distanceMap,
      0 ≤ f.distanceKm := by
  intro f hf
  rcases mem_getFulfillmentWithSplit item quantity destinationCity distanceMap f hf with
    h | ⟨n, -, hn, rfl⟩ | ⟨r, rfl⟩
  · obtain ⟨-, -, rfl⟩ := mem_destinationStep item quantity destinationCity f h
    exact le_refl _
  · obtain ⟨e, -, -, hrec⟩ := findNearest_mem item destinationCity distanceMap n hn
    have : n.distanceKm = rankDistance distanceMap e.1 destinationCity := by rw [hrec]; rfl
    show 0 ≤ n.distanceKm
    rw [this]
    exact rankDistance_nonneg distanceMap hdist _ _
  · exact le_refl _

theorem orderPortions_distance_nonneg (destinationCity : String) (data : Data)
    (orderItems : List OrderItem) (hdist : DistancesNonneg data.distanceMap) :
    ∀ f ∈ orderPortions destinationCity data orderItems, 0 ≤ f.distanceKm := by
  induction orderItems with
  | nil =>
    intro f hf
    simp [orderPortions] at hf
  | cons oi rest ih =>
    intro f hf
    rw [orderPortions] at hf
    rcases List.mem_append.mp hf with h | h
    · unfold linePortions at h
      cases hfind : data.items.find? (fun entry => decide (entry.itemId = oi.itemId)) with
      | none => simp [hfind] at h
      | some item =>
        simp only [hfind] at h
        split_ifs at h
        · simp at h
        · exact getFulfillmentWithSplit_distance_nonneg item _ destinationCity
            data.distanceMap hdist f h
    · exact ih f h

/-- With distances that are not negative, no `AVAILABLE` record has a negative
distance. -/
theorem availableDistances_nonneg (orderItems : List OrderItem) (destinationCity : String)
    (data : Data) (hdist : DistancesNonneg data.distanceMap) :
    ∀ x ∈ availableDistances
        (calculateOrderSummary orderItems destinationCity data).fulfillmentDetails, 0 ≤ x := by
  intro x hx
  rw [calculateOrderSummary_details, availableDistances_orderDetails] at hx
  unfold sourcedDistances at hx
  obtain ⟨f, hf, rfl⟩ := List.mem_map.mp hx
  exact orderPortions_distance_nonneg destinationCity data orderItems hdist f
    (List.mem_filter.mp hf).1

theorem distFar_nonneg : DistancesNonneg distFar := by
  intro c t
  simp only [distFar, distanceGet, jsGet]
  split_ifs <;> simp [parseNumber]

/-- C11: with a distance index whose entries are not negative, `arrivalMinutes`
is `round(30 + D × 1.2 + n × 3)`, the products and sums being those of
JavaScript numbers, with `n` the number of `fulfillmentDetails` records (the
`OUT_OF_STOCK` ones included) and `D` the returned `distanceKm`; `D` is the
maximum `distanceKm` over the `AVAILABLE` records: none of them is farther than
`D`, one of them is at distance `D` when there is any, and `D` is 0 when there
is none. The empty order gives 30, and an order with `D = 240` and two records
gives 324. -/
theorem C11_arrival_minutes (orderItems : List OrderItem) (destinationCity : String)
    (data : Data) (hdist : DistancesNonneg data.distanceMap) :
    (calculateOrderSummary orderItems destinationCity data).arrivalMinutes =
        jsRound (fadd
          (fadd 30
            (fmul (calculateOrderSummary orderItems destinationCity data).distanceKm
              (toDouble 1.2)))
          (fmul
            ((calculateOrderSummary orderItems destinationCity data).fulfillmentDetails.length
              : ℚ) 3)) ∧
      (∀ d ∈ (calculateOrderSummary orderItems destinationCity data).fulfillmentDetails,
        d.status = Status.AVAILABLE →
          d.distanceKm ≤ (calculateOrderSummary orderItems destinationCity data).distanceKm) ∧
      ((∃ d ∈ (calculateOrderSummary orderItems destinationCity data).fulfillmentDetails,
          d.status = Status.AVAILABLE) →
        ∃ d ∈ (calculateOrderSummary orderItems destinationCity data).fulfillmentDetails,
          d.status = Status.AVAILABLE ∧
            d.distanceKm = (calculateOrderSummary orderItems destinationCity data).distanceKm) ∧
      ((∀ d ∈ (calculateOrderSummary orderItems destinationCity data).fulfillmentDetails,
          d.status ≠ Status.AVAILABLE) →
        (calculateOrderSummary orderItems destinationCity data).distanceKm = 0) ∧
      (calculateOrderSummary [] destinationCity data).arrivalMinutes = 30 ∧
      (calculateOrderSummary [{ itemId := 4, quantity := some 2 }] "D"
          { items := [itemFar], distanceMap := distFar }).distanceKm = 240 ∧
      (calculateOrderSummary [{ itemId := 4, quantity := some 2 }] "D"
          { items := [itemFar], distanceMap := distFar }).fulfillmentDetails.length = 2 ∧
      (calculateOrderSummary [{ itemId := 4, quantity := some 2 }] "D"
          { items := [itemFar], distanceMap := distFar }).arrivalMinutes = 324 := by
  have hD : (calculateOrderSummary orderItems destinationCity data).distanceKm =
      maxAvailableDistance
        (calculateOrderSummary orderItems destinationCity data).fulfillmentDetails := by
    rw [calculateOrderSummary_distanceKm, calculateOrderSummary_details, maxAvailableDistance,
      availableDistances_orderDetails]
  have hnn := availableDistances_nonneg orderItems destinationCity data hdist
  have hmemAvail : ∀ d ∈ (calculateOrderSummary orderItems destinationCity data).fulfillmentDetails,
      d.status = Status.AVAILABLE →
      d.distanceKm ∈ availableDistances
        (calculateOrderSummary orderItems destinationCity data).fulfillmentDetails := by
    intro d hd hst
    unfold availableDistances
    exact List.mem_map.mpr ⟨d, List.mem_filter.mpr ⟨hd, by simp [isAvailable, hst]⟩, rfl⟩
  have hempty : (calculateOrderSummary [] destinationCity data).arrivalMinutes = 30 := by
    simp only [calculateOrderSummary, runLines, List.foldl_nil, List.length_nil]
    decide!
  refine ⟨rfl, ?_, ?_, ?_, hempty, by decide!, by decide!, by decide!⟩
  · intro d hd hst
    rw [hD]
    exact le_maxFromZero_of_mem _ _ (hmemAvail d hd hst)
  · rintro ⟨d₀, hd₀, hst₀⟩
    have hin : maxAvailableDistance
        (calculateOrderSummary orderItems destinationCity data).fulfillmentDetails ∈
        availableDistances
          (calculateOrderSummary orderItems destinationCity data).fulfillmentDetails := by
      rcases maxFromZero_eq_zero_or_mem (availableDistances
          (calculateOrderSummary orderItems destinationCity data).fulfillmentDetails) with h | h
      · have hm := hmemAvail d₀ hd₀ hst₀
        have hle := le_maxFromZero_of_mem _ _ hm
        have hge := hnn _ hm
        have heq : d₀.distanceKm = maxAvailableDistance
            (calculateOrderSummary orderItems destinationCity data).fulfillmentDetails := by
          unfold maxAvailableDistance
          rw [h] at hle ⊢
          exact le_antisymm hle hge
        rw [← heq]
        exact hm
      · exact h
    obtain ⟨d, hd, hdist'⟩ := List.mem_map.mp hin
    obtain ⟨hmem, hav⟩ := List.mem_filter.mp hd
    refine ⟨d, hmem, by simpa [isAvailable] using hav, ?_⟩
    rw [hD]
    exact hdist'
  · intro hnone
    rw [hD]
    have hnil : availableDistances
        (calculateOrderSummary orderItems destinationCity data).fulfillmentDetails = [] := by
      unfold availableDistances
      rw [List.map_eq_nil_iff, List.filter_eq_nil_iff]
      intro d hd hav
      exact hnone d hd (by simpa [isAvailable] using hav)
    unfold maxAvailableDistance
    rw [hnil]
    rfl

/-- C11 at the order of 2 of `itemFar`: one unit from `D`, one from `Z` 240 km
away; the farthest `AVAILABLE` record is at the returned `distanceKm`. -/
theorem C11_arrival_minutes_witness :
    DistancesNonneg distFar ∧
      ∃ d ∈ (calculateOrderSummary [{ itemId := 4, quantity := some 2 }] "D"
          { items := [itemFar], distanceMap := distFar }).fulfillmentDetails,
        d.status = Status.AVAILABLE ∧
          d.distanceKm = (calculateOrderSummary [{ itemId := 4, quantity := some 2 }] "D"
            { items := [itemFar], distanceMap := distFar }).distanceKm :=
  ⟨distFar_nonneg,
    (C11_arrival_minutes [{ itemId := 4, quantity := some 2 }] "D"
      { items := [itemFar], distanceMap := distFar } distFar_nonneg).2.2.1
      ⟨{ itemId := 4, productName := "F", quantity := 1, sourceCity := some "D", unitPrice := 100,
         distanceKm := 0, isFallback := some false, status := Status.AVAILABLE },
       by decide!, rfl⟩⟩

/-! ## C12: the arrival estimate when a distance is raised -/

theorem sourcedDistances_destinationStep (item : Item) (quantity : ℚ)
    (destinationCity : String) :
    maxFromZero (sourcedDistances (destinationStep item quantity destinationCity).1) = 0 := by
  rw [destinationStep_eq]
  split_ifs with h
  · by_cases hs : hasSource
        { sourceCity := some destinationCity,
          quantityFromCity := min quantity (stockAt item destinationCity),
          unitPrice := priceAt item destinationCity, distanceKm := 0, outOfStock := false } = true
    · simp [sourcedDistances, hs, maxFromZero]
    · simp [sourcedDistances, hs, maxFromZero]
  · rfl

/-- The greatest sourced distance of one allocation: the distance of the
fallback portion when there is one whose city has a name, counted from 0. -/
theorem maxFromZero_getFulfillmentWithSplit (item : Item) (quantity : ℚ)
    (destinationCity : String) (distanceMap : DistanceMap)
    (hnames : ∀ e ∈ item.quantitiesByCity, e.1 ≠ "") :
    maxFromZero (sourcedDistances
        (getFulfillmentWithSplit item quantity destinationCity distanceMap)) =
      if 0 < (destinationStep item quantity destinationCity).2 then
        match findNearest item destinationCity distanceMap with
        | some n => max n.distanceKm 0
        | none => 0
      else 0 := by
  have hd := sourcedDistances_destinationStep item quantity destinationCity
  have hshort : ∀ r : ℚ, sourcedDistances (if 0 < r then [shortfallPortion r] else []) = [] := by
    intro r
    split_ifs <;> simp [sourcedDistances, shortfallPortion, hasSource, sourceMissing]
  have hz : maxFromZero ([] : List ℚ) = 0 := rfl
  by_cases hr : 0 < (destinationStep item quantity destinationCity).2
  · rw [if_pos hr]
    cases hn : findNearest item destinationCity distanceMap with
    | none =>
      rw [getFulfillmentWithSplit_of_none _ _ _ _ hn, sourcedDistances_append,
        maxFromZero_append, hd, hshort, hz, max_self]
    | some n =>
      obtain ⟨e, he, -, hrec⟩ := findNearest_mem item destinationCity distanceMap n hn
      have hname : n.sourceCity ≠ "" := by
        rw [hrec]
        exact hnames e he
      have hfb : sourcedDistances
          (fallbackPortion (destinationStep item quantity destinationCity).2 n ::
            (if 0 < (destinationStep item quantity destinationCity).2 -
                min (destinationStep item quantity destinationCity).2 n.quantityInCity then
              [shortfallPortion ((destinationStep item quantity destinationCity).2 -
                min (destinationStep item quantity destinationCity).2 n.quantityInCity)]
             else [])) = [n.distanceKm] := by
        have hcons : ∀ l : List Fulfillment,
            sourcedDistances
              (fallbackPortion (destinationStep item quantity destinationCity).2 n :: l) =
            n.distanceKm :: sourcedDistances l := by
          intro l
          simp [sourcedDistances, fallbackPortion, hasSource, sourceMissing, hname]
        rw [hcons, hshort]
      rw [getFulfillmentWithSplit_of_some _ _ _ _ n hr hn, sourcedDistances_append,
        maxFromZero_append, hd, hfb]
      have hone : maxFromZero [n.distanceKm] = max n.distanceKm 0 := rfl
      rw [hone]
      exact max_eq_right (le_max_right _ _)
  · rw [if_neg hr, getFulfillmentWithSplit_of_not_pos _ _ _ _ hr, hd]

/-- When no city is ranked nearer under the second map than under the first,
the greatest sourced distance of an allocation does not drop. -/
theorem maxFromZero_getFulfillmentWithSplit_mono (item : Item) (quantity : ℚ)
    (destinationCity : String) (map₁ map₂ : DistanceMap)
    (hnames : ∀ e ∈ item.quantitiesByCity, e.1 ≠ "")
    (hrank : ∀ c, rankDistance map₁ c destinationCity ≤ rankDistance map₂ c destinationCity) :
    maxFromZero (sourcedDistances (getFulfillmentWithSplit item quantity destinationCity map₁)) ≤
      maxFromZero (sourcedDistances
        (getFulfillmentWithSplit item quantity destinationCity map₂)) := by
  rw [maxFromZero_getFulfillmentWithSplit _ _ _ _ hnames,
    maxFromZero_getFulfillmentWithSplit _ _ _ _ hnames]
  split_ifs with hr
  · cases hn₂ : findNearest item destinationCity map₂ with
    | none =>
      have hn₁ : findNearest item destinationCity map₁ = none :=
        (findNearest_none_iff _ _ _).mpr ((findNearest_none_iff _ _ _).mp hn₂)
      rw [hn₁]
    | some n₂ =>
      obtain ⟨e, he, hc, hrec⟩ := findNearest_mem item destinationCity map₂ n₂ hn₂
      cases hn₁ : findNearest item destinationCity map₁ with
      | none => exact le_max_right _ _
      | some n₁ =>
        have h₁ := findNearest_le item destinationCity map₁ n₁ hn₁ e he hc
        have h₂ : n₂.distanceKm = rankDistance map₂ e.1 destinationCity := by rw [hrec]; rfl
        exact max_le_max (le_trans h₁ (h₂ ▸ hrank e.1)) (le_refl _)
  · exact le_refl _

theorem maxFromZero_linePortions_mono (destinationCity : String) (items : List Item)
    (map₁ map₂ : DistanceMap) (orderItem : OrderItem)
    (hnames : ∀ item ∈ items, ∀ e ∈ item.quantitiesByCity, e.1 ≠ "")
    (hrank : ∀ c, rankDistance map₁ c destinationCity ≤ rankDistance map₂ c destinationCity) :
    maxFromZero (sourcedDistances
        (linePortions destinationCity { items := items, distanceMap := map₁ } orderItem)) ≤
      maxFromZero (sourcedDistances
        (linePortions destinationCity { items := items, distanceMap := map₂ } orderItem)) := by
  unfold linePortions
  cases hf : items.find? (fun entry => decide (entry.itemId = orderItem.itemId)) with
  | none => simp only [hf, le_refl]
  | some item =>
    simp only [hf]
    split_ifs with hq
    · exact le_refl _
    · exact maxFromZero_getFulfillmentWithSplit_mono item _ destinationCity map₁ map₂
        (hnames item (List.mem_of_find?_eq_some hf)) hrank

theorem maxFromZero_orderPortions_mono (destinationCity : String) (items : List Item)
    (map₁ map₂ : DistanceMap) (orderItems : List OrderItem)
    (hnames : ∀ item ∈ items, ∀ e ∈ item.quantitiesByCity, e.1 ≠ "")
    (hrank : ∀ c, rankDistance map₁ c destinationCity ≤ rankDistance map₂ c destinationCity) :
    maxFromZero (sourcedDistances
        (orderPortions destinationCity { items := items, distanceMap := map₁ } orderItems)) ≤
      maxFromZero (sourcedDistances
        (orderPortions destinationCity { items := items, distanceMap := map₂ } orderItems)) := by
  induction orderItems with
  | nil => exact le_refl _
  | cons oi rest ih =>
    simp only [orderPortions, sourcedDistances_append, maxFromZero_append]
    exact max_le_max
      (maxFromZero_linePortions_mono destinationCity items map₁ map₂ oi hnames hrank) ih

theorem jsRound_mono {x y : ℚ} (h : x ≤ y) : jsRound x ≤ jsRound y := by
  unfold jsRound
  exact Int.floor_mono (by linarith)

/-- C12, as stated, fails: `S` (stock 1) is 100 km and `T` (stock 10) is 101 km
from `D`; a request of 5 takes 1 from `S` and leaves 4 unmet (two records,
156 minutes). With the distance from `S` raised to 200 km and nothing else
changed, all 5 come from `T` (one record, 154 minutes). -/
theorem C12_raised_distance_lowers_eta :
    distanceGet distNear "S" "D" = some 100 ∧ distanceGet distRaised "S" "D" = some 200 ∧
      (∀ c t, (c ≠ "S" ∨ t ≠ "D") → distanceGet distRaised c t = distanceGet distNear c t) ∧
      (calculateOrderSummary [{ itemId := 5, quantity := some 5 }] "D"
          { items := [itemST], distanceMap := distNear }).arrivalMinutes = 156 ∧
      (calculateOrderSummary [{ itemId := 5, quantity := some 5 }] "D"
          { items := [itemST], distanceMap := distRaised }).arrivalMinutes = 154 := by
  refine ⟨by decide!, by decide!, ?_, by decide!, by decide!⟩
  intro c t h
  by_cases hc : "S" = c
  · subst hc
    have ht : ¬ "D" = t := fun ht => by
      rcases h with h | h
      · exact h rfl
      · exact h ht.symm
    simp [distRaised, distNear, distanceGet, jsGet, ht]
  · simp [distRaised, distNear, distanceGet, hc]

/-- C12, amended: when the distance from one source city to the destination
is raised and nothing else changes (no stock entry of the catalog being keyed by
the empty city name), the returned `distanceKm` does not decrease, and
`arrivalMinutes` does not decrease provided the number of `fulfillmentDetails`
records does not decrease. -/
theorem C12_monotone_eta (orderItems : List OrderItem) (destinationCity : String)
    (items : List Item) (map₁ map₂ : DistanceMap) (source : String) (d₁ d₂ : ℚ)
    (hnames : ∀ item ∈ items, ∀ e ∈ item.quantitiesByCity, e.1 ≠ "")
    (h₁ : distanceGet map₁ source destinationCity = some d₁)
    (h₂ : distanceGet map₂ source destinationCity = some d₂) (hlt : d₁ < d₂)
    (hother : ∀ c t, (c ≠ source ∨ t ≠ destinationCity) →
      distanceGet map₂ c t = distanceGet map₁ c t) :
    (calculateOrderSummary orderItems destinationCity
        { items := items, distanceMap := map₁ }).distanceKm ≤
      (calculateOrderSummary orderItems destinationCity
        { items := items, distanceMap := map₂ }).distanceKm ∧
    ((calculateOrderSummary orderItems destinationCity
          { items := items, distanceMap := map₁ }).fulfillmentDetails.length ≤
        (calculateOrderSummary orderItems destinationCity
          { items := items, distanceMap := map₂ }).fulfillmentDetails.length →
      (calculateOrderSummary orderItems destinationCity
          { items := items, distanceMap := map₁ }).arrivalMinutes ≤
        (calculateOrderSummary orderItems destinationCity
          { items := items, distanceMap := map₂ }).arrivalMinutes) := by
  have hrank : ∀ c, rankDistance map₁ c destinationCity ≤ rankDistance map₂ c destinationCity := by
    intro c
    by_cases hc : c = source
    · subst hc
      rw [rankDistance_of_some _ _ _ _ h₁, rankDistance_of_some _ _ _ _ h₂]
      exact hlt.le
    · unfold rankDistance
      rw [hother c destinationCity (Or.inl hc)]
  have hD : (calculateOrderSummary orderItems destinationCity
        { items := items, distanceMap := map₁ }).distanceKm ≤
      (calculateOrderSummary orderItems destinationCity
        { items := items, distanceMap := map₂ }).distanceKm := by
    rw [calculateOrderSummary_distanceKm, calculateOrderSummary_distanceKm]
    exact maxFromZero_orderPortions_mono destinationCity items map₁ map₂ orderItems hnames hrank
  refine ⟨hD, ?_⟩
  intro hlen
  have hlen' : ((calculateOrderSummary orderItems destinationCity
        { items := items, distanceMap := map₁ }).fulfillmentDetails.length : ℚ) ≤
      ((calculateOrderSummary orderItems destinationCity
        { items := items, distanceMap := map₂ }).fulfillmentDetails.length : ℚ) := by
    exact_mod_cast hlen
  have hD0 : 0 ≤ (calculateOrderSummary orderItems destinationCity
      { items := items, distanceMap := map₁ }).distanceKm := by
    rw [calculateOrderSummary_distanceKm]
    exact maxFromZero_nonneg _
  have hn0 : (0 : ℚ) ≤ ((calculateOrderSummary orderItems destinationCity
      { items := items, distanceMap := map₁ }).fulfillmentDetails.length : ℚ) :=
    Nat.cast_nonneg _
  have h12 : (0 : ℚ) ≤ toDouble 1.2 := toDouble_nonneg (by norm_num)
  simp only [calculateOrderSummary] at hD hlen' hD0 hn0 ⊢
  apply jsRound_mono
  apply fadd_mono
  · exact add_nonneg (toDouble_nonneg (add_nonneg (by norm_num)
      (toDouble_nonneg (mul_nonneg hD0 h12)))) (toDouble_nonneg (mul_nonneg hn0 (by norm_num)))
  · exact fadd_mono (add_nonneg (by norm_num) (toDouble_nonneg (mul_nonneg hD0 h12)))
      (le_refl _) (fmul_mono_left hD0 h12 hD)
  · exact fmul_mono_left hn0 (by norm_num) hlen'

/-- C12 at scenario 3 with the distance from `Z` raised from 50 to 80 km: the
portions stay the same three and the estimate does not drop. -/
theorem C12_monotone_eta_witness :
    (50 : ℚ) < 80 ∧
      (calculateOrderSummary [{ itemId := 1, quantity := some 5 }] "D"
          { items := [itemA], distanceMap := distA }).fulfillmentDetails.length ≤
        (calculateOrderSummary [{ itemId := 1, quantity := some 5 }] "D"
          { items := [itemA], distanceMap := distARaised }).fulfillmentDetails.length ∧
      (calculateOrderSummary [{ itemId := 1, quantity := some 5 }] "D"
          { items := [itemA], distanceMap := distA }).distanceKm ≤
        (calculateOrderSummary [{ itemId := 1, quantity := some 5 }] "D"
          { items := [itemA], distanceMap := distARaised }).distanceKm ∧
      ((calculateOrderSummary [{ itemId := 1, quantity := some 5 }] "D"
            { items := [itemA], distanceMap := distA }).fulfillmentDetails.length ≤
          (calculateOrderSummary [{ itemId := 1, quantity := some 5 }] "D"
            { items := [itemA], distanceMap := distARaised }).fulfillmentDetails.length →
        (calculateOrderSummary [{ itemId := 1, quantity := some 5 }] "D"
            { items := [itemA], distanceMap := distA }).arrivalMinutes ≤
          (calculateOrderSummary [{ itemId := 1, quantity := some 5 }] "D"
            { items := [itemA], distanceMap := distARaised }).arrivalMinutes) :=
  ⟨by norm_num, by decide!,
    C12_monotone_eta [{ itemId := 1, quantity := some 5 }] "D" [itemA] distA distARaised "Z" 50 80
      (by decide!) (by decide!) (by decide!) (by norm_num)
      (by
        intro c t h
        by_cases hc : "Z" = c
        · subst hc
          have ht : ¬ "D" = t := fun ht => by
            rcases h with h | h
            · exact h rfl
            · exact h ht.symm
          simp [distARaised, distA, distanceGet, jsGet, ht]
        · simp [distARaised, distA, distanceGet, hc])⟩

/-! ## C13: dropped lines -/

theorem lineStep_of_dropped (destinationCity : String) (data : Data) (acc : Acc)
    (orderItem : OrderItem) (h : isDroppedLine data orderItem = true) :
    lineStep destinationCity data acc orderItem = acc := by
  unfold isDroppedLine at h
  rw [Bool.or_eq_true, decide_eq_true_eq, decide_eq_true_eq] at h
  unfold lineStep
  cases hf : data.items.find? (fun entry => decide (entry.itemId = orderItem.itemId)) with
  | none => rfl
  | some item =>
    simp only
    rcases h with hno | hq
    · have hmem := List.mem_of_find?_eq_some hf
      have hid : item.itemId = orderItem.itemId := by
        simpa using List.find?_some hf
      exact absurd hid (hno item hmem)
    · rw [if_pos (max_eq_left hq)]

theorem foldl_lineStep_filter (destinationCity : String) (data : Data)
    (orderItems : List OrderItem) (acc : Acc) :
    orderItems.foldl (lineStep destinationCity data) acc =
      (orderItems.filter (fun oi => !isDroppedLine data oi)).foldl
        (lineStep destinationCity data) acc := by
  induction orderItems generalizing acc with
  | nil => rfl
  | cons oi rest ih =>
    by_cases hd : isDroppedLine data oi = true
    · rw [List.foldl_cons, lineStep_of_dropped _ _ _ _ hd, ih]
      simp [hd]
    · have hd' : isDroppedLine data oi = false := by simpa using hd
      rw [List.foldl_cons, ih]
      simp [hd']

theorem calculateOrderSummary_nil (destinationCity : String) (data : Data) :
    calculateOrderSummary [] destinationCity data = emptySummary := by
  simp only [calculateOrderSummary, runLines, List.foldl_nil, List.length_nil, emptySummary]
  have h0 : jsRound 0 = 0 := by decide!
  have h00 : jsRound (fadd 0 0) = 0 := by decide!
  have h30 : jsRound (fadd (fadd 30 (fmul 0 (toDouble 1.2))) (fmul ((0 : ℕ) : ℚ) 3)) = 30 := by
    decide!
  rw [h0, h00, h30]

/-- C13: the summary of an order is the summary of the order with every
dropped line removed (a line whose `itemId` is not in the catalog, or whose
quantity is zero, negative or not a number); an order made of such lines only,
the empty order among them, yields `itemsCost = 0`, `deliveryCharge = 0`,
`totalCost = 0`, `totalQuantity = 0`, `arrivalMinutes = 30` (and `distanceKm = 0`)
and `fulfillmentDetails = []`. -/
theorem C13_dropped_lines (orderItems : List OrderItem) (destinationCity : String)
    (data : Data) :
    calculateOrderSummary orderItems destinationCity data =
        calculateOrderSummary (orderItems.filter (fun oi => !isDroppedLine data oi))
          destinationCity data ∧
      ((∀ oi ∈ orderItems, isDroppedLine data oi = true) →
        calculateOrderSummary orderItems destinationCity data = emptySummary) ∧
      calculateOrderSummary [] destinationCity data = emptySummary := by
  have hrun : runLines orderItems destinationCity data =
      runLines (orderItems.filter (fun oi => !isDroppedLine data oi)) destinationCity data := by
    unfold runLines
    exact foldl_lineStep_filter destinationCity data orderItems _
  have hfirst : calculateOrderSummary orderItems destinationCity data =
      calculateOrderSummary (orderItems.filter (fun oi => !isDroppedLine data oi))
        destinationCity data := by
    simp only [calculateOrderSummary, hrun]
  refine ⟨hfirst, ?_, calculateOrderSummary_nil destinationCity data⟩
  intro hall
  have hnil : orderItems.filter (fun oi => !isDroppedLine data oi) = [] := by
    rw [List.filter_eq_nil_iff]
    intro oi hoi
    simp [hall oi hoi]
  rw [hfirst, hnil]
  exact calculateOrderSummary_nil destinationCity data

/-! ## C14: the quantities of the records -/

theorem IsInteger_zero : IsInteger 0 := ⟨0, by simp⟩

theorem IsInteger_min {a b : ℚ} (ha : IsInteger a) (hb : IsInteger b) : IsInteger (min a b) := by
  rcases le_total a b with h | h
  · rw [min_eq_left h]; exact ha
  · rw [min_eq_right h]; exact hb

theorem IsInteger_max {a b : ℚ} (ha : IsInteger a) (hb : IsInteger b) : IsInteger (max a b) := by
  rcases le_total a b with h | h
  · rw [max_eq_right h]; exact hb
  · rw [max_eq_left h]; exact ha

theorem IsInteger_sub {a b : ℚ} (ha : IsInteger a) (hb : IsInteger b) : IsInteger (a - b) := by
  obtain ⟨m, rfl⟩ := ha
  obtain ⟨n, rfl⟩ := hb
  exact ⟨m - n, by push_cast; rfl⟩

theorem IsInteger_add {a b : ℚ} (ha : IsInteger a) (hb : IsInteger b) : IsInteger (a + b) := by
  obtain ⟨m, rfl⟩ := ha
  obtain ⟨n, rfl⟩ := hb
  exact ⟨m + n, by push_cast; rfl⟩

theorem IsInteger_parseNumber_jsGet (obj : JsObject) (key : String)
    (h : ∀ e ∈ obj, IsInteger (parseNumber e.2)) : IsInteger (parseNumber (jsGet obj key)) := by
  induction obj with
  | nil => exact IsInteger_zero
  | cons e rest ih =>
    obtain ⟨k, v⟩ := e
    unfold jsGet
    split_ifs with hk
    · exact h (k, v) (List.mem_cons_self _ _)
    · exact ih (fun e he => h e (List.mem_cons_of_mem _ he))

/-- The quantity of every returned portion, for a request above zero: it is
above zero, and it is built from the request, the stock at the destination and
the stock of the scanned entries by `min` and `-` only. -/
theorem getFulfillmentWithSplit_quantity (item : Item) (quantity : ℚ)
    (destinationCity : String) (distanceMap : DistanceMap) (hq : 0 < quantity)
    (P : ℚ → Prop) (hmin : ∀ a b, P a → P b → P (min a b))
    (hsub : ∀ a b, P a → P b → P (a - b)) (hP : P quantity)
    (hdest : P (stockAt item destinationCity))
    (hstock : ∀ e ∈ item.quantitiesByCity, P (parseNumber e.2)) :
    ∀ p ∈ getFulfillmentWithSplit item quantity destinationCity distanceMap,
      0 < p.quantityFromCity ∧ P p.quantityFromCity := by
  have hds : (∀ p ∈ (destinationStep item quantity destinationCity).1,
      0 < p.quantityFromCity ∧ P p.quantityFromCity) ∧
      P (destinationStep item quantity destinationCity).2 := by
    rw [destinationStep_eq]
    split_ifs with h
    · refine ⟨?_, hsub _ _ hP (hmin _ _ hP hdest)⟩
      intro p hp
      have : p = _ := List.mem_singleton.mp hp
      subst this
      exact ⟨lt_min hq h.1, hmin _ _ hP hdest⟩
    · exact ⟨fun p hp => by simp at hp, hP⟩
  intro p hp
  by_cases hr : 0 < (destinationStep item quantity destinationCity).2
  · cases hn : findNearest item destinationCity distanceMap with
    | none =>
      rw [getFulfillmentWithSplit_of_none _ _ _ _ hn, if_pos hr] at hp
      rcases List.mem_append.mp hp with h | h
      · exact hds.1 p h
      · have : p = _ := List.mem_singleton.mp h
        subst this
        exact ⟨hr, hds.2⟩
    | some n =>
      obtain ⟨e, he, hc, hrec⟩ := findNearest_mem item destinationCity distanceMap n hn
      have hnq : n.quantityInCity = parseNumber e.2 := by rw [hrec]; rfl
      have hPn : P n.quantityInCity := hnq ▸ hstock e he
      have hposn : 0 < n.quantityInCity := hnq ▸ hc.2.1
      rw [getFulfillmentWithSplit_of_some _ _ _ _ n hr hn] at hp
      rcases List.mem_append.mp hp with h | h
      · exact hds.1 p h
      · rcases List.mem_cons.mp h with h | h
        · subst h
          exact ⟨lt_min hr hposn, hmin _ _ hds.2 hPn⟩
        · split_ifs at h with hrem
          · have : p = _ := List.mem_singleton.mp h
            subst this
            exact ⟨hrem, hsub _ _ hds.2 (hmin _ _ hds.2 hPn)⟩
          · simp at h
  · rw [getFulfillmentWithSplit_of_not_pos _ _ _ _ hr] at hp
    exact hds.1 p hp

theorem detailOf_quantity (item : Item) (f : Fulfillment) :
    (detailOf item f).quantity = f.quantityFromCity := by
  unfold detailOf
  split_ifs <;> rfl

/-- Every detail record of the summary comes from a portion that the allocator
returned for a catalog item and a line with requested quantity above zero. -/
theorem mem_orderDetails (destinationCity : String) (data : Data)
    (orderItems : List OrderItem) (d : FulfillmentDetail)
    (hd : d ∈ orderDetails destinationCity data orderItems) :
    ∃ oi ∈ orderItems, ∃ item ∈ data.items, 0 < requestedQuantity oi ∧
      ∃ f ∈ getFulfillmentWithSplit item (requestedQuantity oi) destinationCity
          data.distanceMap,
        d.quantity = f.quantityFromCity := by
  induction orderItems with
  | nil => simp [orderDetails] at hd
  | cons oi rest ih =>
    rw [orderDetails] at hd
    rcases List.mem_append.mp hd with h | h
    · refine ⟨oi, List.mem_cons_self _ _, ?_⟩
      unfold lineDetails linePortions at h
      cases hf : data.items.find? (fun entry => decide (entry.itemId = oi.itemId)) with
      | none => simp [hf] at h
      | some item =>
        simp only [hf] at h
        split_ifs at h with hq
        · simp at h
        · obtain ⟨f, hfmem, hfd⟩ := List.mem_map.mp h
          have hpos : 0 < requestedQuantity oi :=
            lt_of_le_of_ne (le_max_left _ _) (Ne.symm hq)
          exact ⟨item, List.mem_of_find?_eq_some hf, hpos, f, hfmem,
            by rw [← hfd, detailOf_quantity]⟩
    · obtain ⟨oi', hmem, rest'⟩ := ih h
      exact ⟨oi', List.mem_cons_of_mem _ hmem, rest'⟩

theorem IsInteger_sum_lineQuantity (destinationCity : String) (data : Data)
    (orderItems : List OrderItem)
    (h : ∀ oi ∈ orderItems, IsInteger (parseNumber oi.quantity)) :
    IsInteger ((orderItems.map (lineQuantity destinationCity data)).sum) := by
  induction orderItems with
  | nil => exact IsInteger_zero
  | cons oi rest ih =>
    rw [List.map_cons, List.sum_cons]
    apply IsInteger_add
    · unfold lineQuantity
      cases data.items.find? (fun entry => decide (entry.itemId = oi.itemId)) with
      | none => exact IsInteger_zero
      | some item =>
        simp only
        split_ifs
        · exact IsInteger_max IsInteger_zero (h oi (List.mem_cons_self _ _))
        · exact IsInteger_zero
    · exact ih (fun oi' h' => h oi' (List.mem_cons_of_mem _ h'))

/-- C14, as stated, fails: a quantity of 2.5 is passed to the allocator as 2.5;
for `itemA` it is split into 2 from `D` and 0.5 from `Z`, and `totalQuantity` is
2.5. -/
theorem C14_fractional_quantity_kept :
    requestedQuantity { itemId := 1, quantity := some (5 / 2) } = 5 / 2 ∧
      ¬ IsInteger (requestedQuantity { itemId := 1, quantity := some (5 / 2) }) ∧
      ((calculateOrderSummary [{ itemId := 1, quantity := some (5 / 2) }] "D"
          { items := [itemA], distanceMap := distA }).fulfillmentDetails.map
        (fun d => d.quantity)) = [2, 1 / 2] ∧
      (calculateOrderSummary [{ itemId := 1, quantity := some (5 / 2) }] "D"
          { items := [itemA], distanceMap := distA }).totalQuantity = 5 / 2 := by
  have h : requestedQuantity { itemId := 1, quantity := some (5 / 2) } = 5 / 2 := by decide!
  refine ⟨h, ?_, by decide!, by decide!⟩
  rw [h]
  rintro ⟨n, hn⟩
  have h2 : (5 : ℚ) = ((2 * n : ℤ) : ℚ) := by
    push_cast
    linarith
  have h3 : (5 : ℤ) = 2 * n := by exact_mod_cast h2
  omega

theorem lineDetails_eq (destinationCity : String) (data : Data) (orderItem : OrderItem) :
    lineDetails destinationCity data orderItem =
      match data.items.find? (fun entry => decide (entry.itemId = orderItem.itemId)) with
      | none => []
      | some item =>
        if max 0 (parseNumber orderItem.quantity) = 0 then []
        else (getFulfillmentWithSplit item (max 0 (parseNumber orderItem.quantity))
          destinationCity data.distanceMap).map (detailOf item) := by
  unfold lineDetails linePortions
  cases data.items.find? (fun entry => decide (entry.itemId = orderItem.itemId)) with
  | none => rfl
  | some item =>
    simp only
    split_ifs <;> rfl

/-- C14, amended: the quantity passed to the allocator is
`max(0, parseNumber(quantity))`: the detail records of the summary are, line by
line, the records of the portions that `getFulfillmentWithSplit` returns for
that quantity (a line whose item is unknown or whose quantity is 0 giving none).
The quantity is not negative and not rounded, an integer when the supplied
quantity is one; every `fulfillmentDetails` record has a quantity above zero;
`totalQuantity` is an integer when every supplied quantity is one, and then
every record quantity is an integer too when every stock of the catalog is
one. -/
theorem C14_quantities (orderItems : List OrderItem) (destinationCity : String)
    (data : Data) :
    (calculateOrderSummary orderItems destinationCity data).fulfillmentDetails =
      (orderItems.map (fun oi =>
        match data.items.find? (fun entry => decide (entry.itemId = oi.itemId)) with
        | none => []
        | some item =>
          if max 0 (parseNumber oi.quantity) = 0 then []
          else (getFulfillmentWithSplit item (max 0 (parseNumber oi.quantity)) destinationCity
            data.distanceMap).map (detailOf item))).flatten ∧
    (∀ oi ∈ orderItems, 0 ≤ requestedQuantity oi ∧
      (IsInteger (parseNumber oi.quantity) → IsInteger (requestedQuantity oi))) ∧
    (∀ d ∈ (calculateOrderSummary orderItems destinationCity data).fulfillmentDetails,
      0 < d.quantity) ∧
    ((∀ oi ∈ orderItems, IsInteger (parseNumber oi.quantity)) →
      IsInteger (calculateOrderSummary orderItems destinationCity data).totalQuantity ∧
      ((∀ item ∈ data.items, ∀ e ∈ item.quantitiesByCity, IsInteger (parseNumber e.2)) →
        ∀ d ∈ (calculateOrderSummary orderItems destinationCity data).fulfillmentDetails,
          IsInteger d.quantity)) := by
  refine ⟨?_, ?_, ?_, ?_⟩
  · rw [calculateOrderSummary_details]
    induction orderItems with
    | nil => rfl
    | cons oi rest ih =>
      rw [orderDetails, ih, lineDetails_eq, List.map_cons, List.flatten_cons]
  · intro oi _
    exact ⟨le_max_left _ _, fun h => IsInteger_max IsInteger_zero h⟩
  · intro d hd
    rw [calculateOrderSummary_details] at hd
    obtain ⟨oi, -, item, -, hpos, f, hf, hdq⟩ :=
      mem_orderDetails destinationCity data orderItems d hd
    rw [hdq]
    exact (getFulfillmentWithSplit_quantity item _ destinationCity data.distanceMap hpos
      (fun _ => True) (fun _ _ _ _ => trivial) (fun _ _ _ _ => trivial) trivial trivial
      (fun _ _ => trivial) f hf).1
  · intro hint
    constructor
    · have htot : (calculateOrderSummary orderItems destinationCity data).totalQuantity =
          (orderItems.map (lineQuantity destinationCity data)).sum := by
        simp only [calculateOrderSummary, runLines]
        rw [foldl_lineStep_totalQuantity]
        simp
      rw [htot]
      exact IsInteger_sum_lineQuantity destinationCity data orderItems hint
    · intro hstock d hd
      rw [calculateOrderSummary_details] at hd
      obtain ⟨oi, hoi, item, hitem, hpos, f, hf, hdq⟩ :=
        mem_orderDetails destinationCity data orderItems d hd
      rw [hdq]
      exact (getFulfillmentWithSplit_quantity item _ destinationCity data.distanceMap hpos
        IsInteger (fun _ _ => IsInteger_min) (fun _ _ => IsInteger_sub)
        (IsInteger_max IsInteger_zero (hint oi hoi))
        (IsInteger_parseNumber_jsGet _ _ (hstock item hitem))
        (hstock item hitem) f hf).2

/-! ## C15: the catalog preview price -/

theorem foldl_min_le_init (l : List ℚ) (a : ℚ) : l.foldl min a ≤ a := by
  induction l generalizing a with
  | nil => exact le_refl _
  | cons x rest ih => exact le_trans (ih (min a x)) (min_le_left _ _)

theorem foldl_min_le_of_mem (l : List ℚ) (a x : ℚ) (hx : x ∈ l) : l.foldl min a ≤ x := by
  induction l generalizing a with
  | nil => simp at hx
  | cons y rest ih =>
    rcases List.mem_cons.mp hx with rfl | h
    · exact le_trans (foldl_min_le_init rest (min a x)) (min_le_right _ _)
    · exact ih (min a y) h

theorem foldl_min_mem (l : List ℚ) (a : ℚ) : l.foldl min a ∈ a :: l := by
  induction l generalizing a with
  | nil => simp
  | cons y rest ih =>
    have h := ih (min a y)
    rcases List.mem_cons.mp h with h' | h'
    · rcases le_total a y with hle | hle
      · rw [List.foldl_cons, h', min_eq_left hle]
        exact List.mem_cons_self _ _
      · rw [List.foldl_cons, h', min_eq_right hle]
        exact List.mem_cons_of_mem _ (List.mem_cons_self _ _)
    · exact List.mem_cons_of_mem _ (List.mem_cons_of_mem _ h')

/-- C15: `getLowestAvailablePrice` is not above any of the item's per-city
prices that are above zero; when there is such a price it is one of them (so it
is their minimum); and it is 0 exactly when no city has a price above zero
(prices that are zero, negative, missing or not a number being ignored). -/
theorem C15_lowest_available_price (item : Item) :
    (∀ e ∈ item.pricesByCity, 0 < parseNumber e.2 →
      getLowestAvailablePrice item ≤ parseNumber e.2) ∧
    ((∃ e ∈ item.pricesByCity, 0 < parseNumber e.2) →
      ∃ e ∈ item.pricesByCity, 0 < parseNumber e.2 ∧
        getLowestAvailablePrice item = parseNumber e.2) ∧
    (getLowestAvailablePrice item = 0 ↔ ∀ e ∈ item.pricesByCity, ¬ 0 < parseNumber e.2) := by
  have hmem : ∀ p : ℚ,
      p ∈ (item.pricesByCity.map (fun entry => parseNumber entry.2)).filter
          (fun price => decide (price > 0)) ↔
        ∃ e ∈ item.pricesByCity, 0 < parseNumber e.2 ∧ p = parseNumber e.2 := by
    intro p
    rw [List.mem_filter, List.mem_map]
    constructor
    · rintro ⟨⟨e, he, rfl⟩, hp⟩
      exact ⟨e, he, by simpa using hp, rfl⟩
    · rintro ⟨e, he, hpos, rfl⟩
      exact ⟨⟨e, he, rfl⟩, by simpa using hpos⟩
  unfold getLowestAvailablePrice
  simp only
  cases hps : (item.pricesByCity.map (fun entry => parseNumber entry.2)).filter
      (fun price => decide (price > 0)) with
  | nil =>
    have hnone : ∀ e ∈ item.pricesByCity, ¬ 0 < parseNumber e.2 := by
      intro e he hpos
      have := (hmem (parseNumber e.2)).mpr ⟨e, he, hpos, rfl⟩
      rw [hps] at this
      simp at this
    refine ⟨?_, ?_, ?_⟩
    · intro e he hpos
      exact absurd hpos (hnone e he)
    · rintro ⟨e, he, hpos⟩
      exact absurd hpos (hnone e he)
    · exact ⟨fun _ => hnone, fun _ => rfl⟩
  | cons p rest =>
    have hin : rest.foldl min p ∈
        (item.pricesByCity.map (fun entry => parseNumber entry.2)).filter
          (fun price => decide (price > 0)) := by
      rw [hps]
      exact foldl_min_mem rest p
    obtain ⟨e₀, he₀, hpos₀, heq₀⟩ := (hmem _).mp hin
    refine ⟨?_, ?_, ?_⟩
    · intro e he hpos
      have hx : parseNumber e.2 ∈ p :: rest := by
        rw [← hps]
        exact (hmem _).mpr ⟨e, he, hpos, rfl⟩
      rcases List.mem_cons.mp hx with h | h
      · rw [h]
        exact foldl_min_le_init rest p
      · exact foldl_min_le_of_mem rest p _ h
    · intro _
      exact ⟨e₀, he₀, hpos₀, heq₀⟩
    · constructor
      · intro h0
        have h0' : rest.foldl min p = 0 := h0
        rw [heq₀] at h0'
        exact absurd h0' (ne_of_gt hpos₀)
      · intro hnone
        exact absurd hpos₀ (hnone e₀ he₀)

/-! ## C16: the fallback draws from one city only -/

/-- C16: there are an item, a destination and a quantity with enough
sellable stock in all and yet an out-of-stock portion: `itemST` has nothing at
`D`, stock 1 at `S` (100 km) and stock 10 at `T` (101 km), 11 in all; a request
of 5 gives one portion of 1 from `S` and an unmet portion of 4. -/
theorem C16_bounded_fallback :
    stockAt itemST "D" = 0 ∧ totalSellableStock itemST = 11 ∧
      getFulfillmentWithSplit itemST 5 "D" distNear =
        [{ sourceCity := some "S", quantityFromCity := 1, unitPrice := 80, distanceKm := 100,
           outOfStock := false },
         { sourceCity := none, quantityFromCity := 4, unitPrice := 0, distanceKm := 0,
           outOfStock := true }] ∧
      ∃ (item : Item) (destinationCity : String) (distanceMap : DistanceMap) (quantity : ℚ),
        quantity ≤ totalSellableStock item ∧
          ∃ p ∈ getFulfillmentWithSplit item quantity destinationCity distanceMap,
            p.sourceCity = none ∧ p.outOfStock = true :=
  ⟨by decide!, by decide!, by decide!,
    itemST, "D", distNear, 5, by decide!,
      { sourceCity := none, quantityFromCity := 4, unitPrice := 0, distanceKm := 0,
        outOfStock := true }, by decide!, rfl, rfl⟩

end ECart
